import Mathlib

/-!
# Verification of the CCSDS_Simulator repository core

Shallow embedding of the CCSDS Space Packet codec, the CRC16 primitive,
the telemetry/parameter stores and the MO-service operation handlers of
the repository, together with proofs settling the frozen claims.

Bytes are modelled as natural numbers (each byte `< 256` where produced
by the code); machine words are `Nat` with explicit masking, matching
Python's unbounded integers plus `struct.pack` range checks.
-/

namespace CCSDS

/-! ## CRC16 (`simulator.py`, `CCSDSSimulator._calculate_crc`) -/

/-- One shift step of the bit-serial CRC loop: the body of
`for _ in range(8)` in `_calculate_crc` (shift left, conditionally xor
with the 0x1021 polynomial, then `crc &= 0xFFFF`). -/
def crcShift (crc : Nat) : Nat :=
  if crc &&& 0x8000 ≠ 0 then ((crc <<< 1) ^^^ 0x1021) &&& 0xFFFF
  else (crc <<< 1) &&& 0xFFFF

/-- `CCSDSSimulator._calculate_crc`: register starts at 0xFFFF; each input
byte is xored into the high byte (`crc ^= byte << 8`) and then the shift
step runs 8 times. -/
def calculate_crc (data : List Nat) : Nat :=
  data.foldl (fun crc byte => crcShift^[8] (crc ^^^ (byte <<< 8))) 0xFFFF

theorem crcShift_lt (c : Nat) : crcShift c < 65536 := by
  unfold crcShift
  split <;> exact Nat.lt_succ_of_le (Nat.and_le_right)

theorem crcShift_iter8_lt (c : Nat) : crcShift^[8] c < 65536 := by
  rw [show (8 : Nat) = 7 + 1 from rfl, Function.iterate_succ_apply']
  exact crcShift_lt _

theorem calculate_crc_lt (data : List Nat) : calculate_crc data < 65536 := by
  unfold calculate_crc
  have h : ∀ (l : List Nat) (c : Nat), c < 65536 →
      l.foldl (fun crc byte => crcShift^[8] (crc ^^^ (byte <<< 8))) c < 65536 := by
    intro l
    induction l with
    | nil => intro c hc; simpa using hc
    | cons b t ih => intro c _; exact ih _ (crcShift_iter8_lt _)
  exact h data 0xFFFF (by norm_num)

/-! ## Bitwise arithmetic helpers -/

theorem mul_two_pow_lor_eq_add (a : Nat) : ∀ (n b : Nat), b < 2 ^ n →
    (a * 2 ^ n) ||| b = a * 2 ^ n + b := by
  intro n
  induction n generalizing a with
  | zero => intro b hb; interval_cases b; simp
  | succ n ih =>
      intro b hb
      have hx : a * 2 ^ (n + 1) = Nat.bit false (a * 2 ^ n) := by
        simp [Nat.bit_val]; ring
      have hy : b = Nat.bit (b.testBit 0) (b >>> 1) :=
        (Nat.bit_testBit_zero_shiftRight_one b).symm
      rw [hx, hy, Nat.lor_bit]
      have hlt : b >>> 1 < 2 ^ n := by
        rw [Nat.shiftRight_one]
        omega
      rw [ih _ _ hlt]
      simp [Nat.bit_val, Nat.testBit_zero]
      rw [Nat.shiftRight_one]
      rcases Nat.even_or_odd b with h | h
      · simp [Nat.even_iff.mp h]
        omega
      · simp [Nat.odd_iff.mp h]
        omega

theorem shiftLeft_lor_eq_add (a n b : Nat) (h : b < 2 ^ n) :
    (a <<< n) ||| b = a <<< n + b := by
  rw [Nat.shiftLeft_eq]
  exact mul_two_pow_lor_eq_add a n b h

/-! ## Packet encoder (`simulator.py`, `CCSDSSimulator.create_ccsds_packet`)

`struct.pack('>H', w)` and `struct.pack('>I', w)` produce big-endian byte
lists; `pack` raises for out-of-range words, so the encoder returns
`Option`, `none` exactly when a 16-bit word is out of range. -/

/-- Big-endian 16-bit word → 2 bytes (valid for `w < 65536`, which the
encoder's range guard establishes). -/
def packH (w : Nat) : List Nat := [w / 256, w % 256]

/-- Big-endian 32-bit word → 4 bytes. -/
def packI (w : Nat) : List Nat :=
  [w / 16777216, w / 65536 % 256, w / 256 % 256, w % 256]

/-- First primary-header word as built by `create_ccsds_packet`:
`(packet_version << 13) | (packet_type << 12) | (sec_header_flag << 11) | apid`
with version 0, type 0 (telemetry), secondary-header flag 1. -/
def word1Of (apid : Nat) : Nat :=
  (0 <<< 13) ||| (0 <<< 12) ||| (1 <<< 11) ||| apid

/-- Second primary-header word: `(sequence_flags << 14) | sequence_count`
with sequence flags 3 and `sequence_count = counter % 16384`. -/
def word2Of (counter : Nat) : Nat := (3 <<< 14) ||| (counter % 16384)

/-- `CCSDSSimulator.create_ccsds_packet`, parametrized over the APID,
packet counter, current wall-clock seconds and the already-serialized
JSON payload bytes (`json.dumps(data).encode('utf-8')`).  Returns `none`
when `struct.pack('>HHH', ...)` would raise (a word ≥ 2^16); `word2` is
always in range because the counter is reduced mod 16384. -/
def create_ccsds_packet (apid counter ts : Nat) (json_data : List Nat) :
    Option (List Nat) :=
  let word1 := word1Of apid
  let word2 := word2Of counter
  let total_data_length := 11 + json_data.length + 2
  let word3 := total_data_length - 7
  if word1 < 65536 ∧ word3 < 65536 then
    let header := packH word1 ++ packH word2 ++ packH word3
    let sec_header := packI (ts % 86400) ++ [1, 3, 1] ++ packH 1000 ++ packH 2000
    let packet := header ++ sec_header ++ json_data
    let crc := calculate_crc packet
    some (packet ++ packH crc)
  else none

/-- The packet bytes before the CRC trailer. -/
def ccsdsBody (apid counter ts : Nat) (json_data : List Nat) : List Nat :=
  packH (word1Of apid) ++ packH (word2Of counter) ++
    packH (11 + json_data.length + 2 - 7) ++
    packI (ts % 86400) ++ [1, 3, 1] ++ packH 1000 ++ packH 2000 ++ json_data

theorem create_eq_some {apid counter ts : Nat} {json_data pkt : List Nat}
    (h : create_ccsds_packet apid counter ts json_data = some pkt) :
    pkt = ccsdsBody apid counter ts json_data ++
        packH (calculate_crc (ccsdsBody apid counter ts json_data)) ∧
      word1Of apid < 65536 ∧ 11 + json_data.length + 2 - 7 < 65536 := by
  unfold create_ccsds_packet at h
  simp only at h
  split at h
  · next hcond =>
      injection h with h
      refine ⟨?_, hcond.1, hcond.2⟩
      rw [← h]
      simp [ccsdsBody, List.append_assoc]
  · exact absurd h (by simp)

theorem word1Of_eq {apid : Nat} (h : apid < 2048) :
    word1Of apid = 2048 + apid := by
  unfold word1Of
  have := shiftLeft_lor_eq_add 1 11 apid h
  simp at this ⊢
  omega

theorem word2Of_eq (counter : Nat) :
    word2Of counter = 49152 + counter % 16384 := by
  unfold word2Of
  have := shiftLeft_lor_eq_add 3 14 (counter % 16384) (by omega)
  simpa using this

/-! ## Packet decoder (`mo_service.py`, `CCSDSParser.parse_packet`)

The decoder is parametric in the telemetry type `T` and in
`jsonLoads : List Nat → Option T`, the shallow embedding of
`json.loads(bytes.decode('utf-8', errors='ignore'))`: `some t` when the
payload bytes parse as JSON, `none` when `json.loads` raises (the
`except` branch).  The raw-hex fallback `{"raw": data.hex()}` is
modelled by `Telemetry.raw` carrying the bytes whose hex string the code
stores (`hex` is injective, so nothing is lost). -/

inductive Telemetry (T : Type) where
  | json : T → Telemetry T
  | raw : List Nat → Telemetry T

/-- The dict returned by `parse_packet` on success (header fields,
telemetry, `raw_size`, reception timestamp). -/
structure Packet (T : Type) where
  version : Nat
  ptype : String
  apid : Nat
  sequence_flags : Nat
  sequence_count : Nat
  data_length : Nat
  telemetry : Telemetry T
  raw_size : Nat
  timestamp : String

/-- Result of `parse_packet`: either a packet dict or a dict with an
`"error"` key (`{"error": "Packet too short"}` / `{"error": "Parse error: ..."}`). -/
inductive ParseResult (T : Type) where
  | err : String → ParseResult T
  | packet : Packet T → ParseResult T

/-- `CCSDSParser.parse_packet`.  `now` is the wall-clock timestamp the
code stores in the result.  The pure body raises no exception, so the
outer `except` branch (`"Parse error: ..."`) is unreachable here. -/
def parse_packet {T : Type} (jsonLoads : List Nat → Option T) (now : String)
    (data : List Nat) : ParseResult T :=
  if data.length < 6 then .err "Packet too short"
  else
    let word1 := 256 * data.getD 0 0 + data.getD 1 0
    let word2 := 256 * data.getD 2 0 + data.getD 3 0
    let word3 := 256 * data.getD 4 0 + data.getD 5 0
    let packet_version := (word1 >>> 13) &&& 0x07
    let packet_type := (word1 >>> 12) &&& 0x01
    let sec_header_flag := (word1 >>> 11) &&& 0x01
    let apid := word1 &&& 0x7FF
    let sequence_flags := (word2 >>> 14) &&& 0x03
    let sequence_count := word2 &&& 0x3FFF
    let telemetry :=
      if sec_header_flag ≠ 0 ∧ 17 ≤ data.length then
        if 17 < data.length - 2 then
          let json_data := (data.drop 17).take (data.length - 2 - 17)
          match jsonLoads json_data with
          | some t => Telemetry.json t
          | none => Telemetry.raw json_data
        else Telemetry.raw (data.drop 6)
      else Telemetry.raw (data.drop 6)
    .packet
      { version := packet_version
        ptype := if packet_type = 0 then "TM" else "TC"
        apid := apid
        sequence_flags := sequence_flags
        sequence_count := sequence_count
        data_length := word3
        telemetry := telemetry
        raw_size := data.length
        timestamp := now }

theorem ccsdsBody_cons (apid counter ts : Nat) (p : List Nat) :
    ccsdsBody apid counter ts p =
      word1Of apid / 256 :: word1Of apid % 256 ::
      word2Of counter / 256 :: word2Of counter % 256 ::
      (11 + p.length + 2 - 7) / 256 :: (11 + p.length + 2 - 7) % 256 ::
      ts % 86400 / 16777216 :: ts % 86400 / 65536 % 256 ::
      ts % 86400 / 256 % 256 :: ts % 86400 % 256 ::
      1 :: 3 :: 1 :: 3 :: 232 :: 7 :: 208 :: p := by
  norm_num [ccsdsBody, packH, packI]

/-- Evaluation of `parse_packet` on a well-formed 17-byte-header packet
followed by a nonempty payload and a 2-byte trailer. -/
theorem parse_on_body {T : Type} (jsonLoads : List Nat → Option T) (now : String)
    (w1 w2 w3 s0 s1 s2 s3 : Nat) (p : List Nat) (x y : Nat)
    (hflag : (w1 >>> 11) &&& 1 ≠ 0) (hne : p ≠ []) :
    parse_packet jsonLoads now
      (w1 / 256 :: w1 % 256 :: w2 / 256 :: w2 % 256 :: w3 / 256 :: w3 % 256 ::
        s0 :: s1 :: s2 :: s3 :: 1 :: 3 :: 1 :: 3 :: 232 :: 7 :: 208 ::
        (p ++ [x, y])) = .packet
      { version := (w1 >>> 13) &&& 7
        ptype := if (w1 >>> 12) &&& 1 = 0 then "TM" else "TC"
        apid := w1 &&& 0x7FF
        sequence_flags := (w2 >>> 14) &&& 3
        sequence_count := w2 &&& 0x3FFF
        data_length := w3
        telemetry := match jsonLoads p with
          | some t => .json t
          | none => .raw p
        raw_size := 19 + p.length
        timestamp := now } := by
  have hlen : (w1 / 256 :: w1 % 256 :: w2 / 256 :: w2 % 256 :: w3 / 256 ::
      w3 % 256 :: s0 :: s1 :: s2 :: s3 :: 1 :: 3 :: 1 :: 3 :: 232 :: 7 :: 208 ::
      (p ++ [x, y])).length = 19 + p.length := by
    simp; omega
  have hplen : 0 < p.length := List.length_pos.mpr hne
  unfold parse_packet
  rw [hlen]
  rw [if_neg (by omega)]
  simp only [List.getD_cons_zero, List.getD_cons_succ]
  have hw1 : 256 * (w1 / 256) + w1 % 256 = w1 := by omega
  have hw2 : 256 * (w2 / 256) + w2 % 256 = w2 := by omega
  have hw3 : 256 * (w3 / 256) + w3 % 256 = w3 := by omega
  simp only [hw1, hw2, hw3]
  rw [if_pos (And.intro hflag (by omega : 17 ≤ 19 + p.length))]
  rw [if_pos (by omega : 17 < 19 + p.length - 2)]
  have hdrop : (w1 / 256 :: w1 % 256 :: w2 / 256 :: w2 % 256 :: w3 / 256 ::
      w3 % 256 :: s0 :: s1 :: s2 :: s3 :: 1 :: 3 :: 1 :: 3 :: 232 :: 7 :: 208 ::
      (p ++ [x, y])).drop 17 = p ++ [x, y] := by
    simp
  rw [hdrop]
  have htake : (p ++ [x, y]).take (19 + p.length - 2 - 17) = p := by
    rw [show 19 + p.length - 2 - 17 = p.length by omega]
    exact List.take_left p [x, y]
  rw [htake]

/-- Full characterization of decoding an encoded packet (valid APID,
nonempty payload). -/
theorem parse_create {T : Type} (jsonLoads : List Nat → Option T) (now : String)
    {apid counter ts : Nat} {payload pkt : List Nat}
    (hapid : apid < 2048) (hne : payload ≠ [])
    (h : create_ccsds_packet apid counter ts payload = some pkt) :
    parse_packet jsonLoads now pkt = .packet
      { version := 0
        ptype := "TM"
        apid := apid
        sequence_flags := 3
        sequence_count := counter % 16384
        data_length := 11 + payload.length + 2 - 7
        telemetry := match jsonLoads payload with
          | some t => .json t
          | none => .raw payload
        raw_size := 19 + payload.length
        timestamp := now } := by
  obtain ⟨hpkt, hw1, hw3⟩ := create_eq_some h
  subst hpkt
  rw [ccsdsBody_cons, word1Of_eq hapid, word2Of_eq counter]
  simp only [packH, List.cons_append, List.append_assoc, List.nil_append]
  have hflag : ((2048 + apid) >>> 11) &&& 1 ≠ 0 := by
    rw [Nat.shiftRight_eq_div_pow]
    norm_num
    omega
  rw [parse_on_body jsonLoads now (2048 + apid) (49152 + counter % 16384)
    (11 + payload.length + 2 - 7) _ _ _ _ payload _ _ hflag hne]
  have hr : counter % 16384 < 16384 := by omega
  have hv : ((2048 + apid) >>> 13) &&& 7 = 0 := by
    rw [Nat.shiftRight_eq_div_pow]
    have h2 := Nat.and_pow_two_sub_one_eq_mod ((2048 + apid) / 2 ^ 13) 3
    norm_num at h2 ⊢
    omega
  have hpt : ((2048 + apid) >>> 12) &&& 1 = 0 := by
    rw [Nat.shiftRight_eq_div_pow]
    norm_num
    omega
  have hap : (2048 + apid) &&& 0x7FF = apid := by
    have h2 := Nat.and_pow_two_sub_one_eq_mod (2048 + apid) 11
    norm_num at h2
    omega
  have hsf : ((49152 + counter % 16384) >>> 14) &&& 3 = 3 := by
    rw [Nat.shiftRight_eq_div_pow]
    have h2 := Nat.and_pow_two_sub_one_eq_mod ((49152 + counter % 16384) / 2 ^ 14) 2
    norm_num at h2 ⊢
    omega
  have hsc : (49152 + counter % 16384) &&& 0x3FFF = counter % 16384 := by
    have h2 := Nat.and_pow_two_sub_one_eq_mod (49152 + counter % 16384) 14
    norm_num at h2
    omega
  simp [ParseResult.packet.injEq, Packet.mk.injEq, hv, hpt, hap, hsf, hsc]

/-! ## Claims C3, C4, C5 -/

/-- C3: for every apid in 0..2047, every sequence counter value, and every
nonempty payload that parses as JSON (`jsonLoads payload = some t`; the
empty byte string is not valid JSON), decoding the bytes produced by
`create_ccsds_packet` yields a packet whose apid equals the given apid,
whose sequence count equals the counter modulo 16384, and whose decoded
telemetry equals the parse of the encoded payload. -/
theorem claim_C3_encode_decode_roundtrip {T : Type}
    (jsonLoads : List Nat → Option T) (now : String)
    (apid counter ts : Nat) (payload pkt : List Nat) (t : T)
    (hapid : apid < 2048) (hjson : jsonLoads payload = some t)
    (hne : payload ≠ [])
    (henc : create_ccsds_packet apid counter ts payload = some pkt) :
    ∃ p, parse_packet jsonLoads now pkt = .packet p ∧
      p.apid = apid ∧ p.sequence_count = counter % 16384 ∧
      p.telemetry = .json t := by
  refine ⟨_, parse_create jsonLoads now hapid hne henc, rfl, rfl, ?_⟩
  simp [hjson]

theorem claim_C3_witness :
    ∃ p, parse_packet (fun _ : List Nat => some ()) ""
        ((create_ccsds_packet 100 16385 0 [48]).getD []) = .packet p ∧
      p.apid = 100 ∧ p.sequence_count = 16385 % 16384 ∧
      p.telemetry = .json () :=
  claim_C3_encode_decode_roundtrip (fun _ => some ()) "" 100 16385 0 [48] _ ()
    (by norm_num) rfl (by decide) (by rfl)

/-- C4: for every packet produced by `create_ccsds_packet`, the trailing
2 bytes are the big-endian `calculate_crc` (CCITT-style bit-serial,
initial register 0xFFFF, polynomial 0x1021) of all preceding bytes. -/
theorem claim_C4_crc_trailer (apid counter ts : Nat) (payload pkt : List Nat)
    (henc : create_ccsds_packet apid counter ts payload = some pkt) :
    2 ≤ pkt.length ∧
      pkt.drop (pkt.length - 2) =
        packH (calculate_crc (pkt.take (pkt.length - 2))) := by
  obtain ⟨hpkt, hw1, hw3⟩ := create_eq_some henc
  subst hpkt
  constructor
  · simp [packH]
  · have hlen2 : (ccsdsBody apid counter ts payload ++
        packH (calculate_crc (ccsdsBody apid counter ts payload))).length - 2 =
        (ccsdsBody apid counter ts payload).length := by
      simp [packH]
    rw [hlen2, List.drop_left, List.take_left]

theorem claim_C4_witness :
    2 ≤ ((create_ccsds_packet 100 0 0 [48]).getD []).length ∧
      ((create_ccsds_packet 100 0 0 [48]).getD []).drop
          (((create_ccsds_packet 100 0 0 [48]).getD []).length - 2) =
        packH (calculate_crc (((create_ccsds_packet 100 0 0 [48]).getD []).take
          (((create_ccsds_packet 100 0 0 [48]).getD []).length - 2))) :=
  claim_C4_crc_trailer 100 0 0 [48] _ (by rfl)

/-- C5: for every packet produced by `create_ccsds_packet` with payload
`p`, the 16-bit declared data-length field (bytes 4–5, the third
primary-header word, big-endian) equals `(11 + p.length + 2) - 7`. -/
theorem claim_C5_length_field (apid counter ts : Nat) (payload pkt : List Nat)
    (henc : create_ccsds_packet apid counter ts payload = some pkt) :
    256 * pkt.getD 4 0 + pkt.getD 5 0 = (11 + payload.length + 2) - 7 := by
  obtain ⟨hpkt, hw1, hw3⟩ := create_eq_some henc
  subst hpkt
  rw [ccsdsBody_cons]
  simp only [packH, List.cons_append, List.getD_cons_succ, List.getD_cons_zero]
  omega

theorem claim_C5_witness :
    256 * ((create_ccsds_packet 100 0 0 [48, 49]).getD []).getD 4 0 +
        ((create_ccsds_packet 100 0 0 [48, 49]).getD []).getD 5 0 =
      (11 + ([48, 49] : List Nat).length + 2) - 7 :=
  claim_C5_length_field 100 0 0 [48, 49] _ (by rfl)

/-! ## Claim C6: totality of the decoder -/

/-- C6: `parse_packet` is total on arbitrary byte strings: every input of
fewer than 6 bytes yields the too-short error dict, and every other input
yields a decoded packet (with raw fallback when the secondary-header flag
is unset, the buffer is too short, or the payload is not decodable JSON);
no input raises an exception (the function is total by construction and
the `"Parse error"` branch is never reached). -/
theorem claim_C6_decode_total {T : Type} (jsonLoads : List Nat → Option T)
    (now : String) (data : List Nat) :
    (data.length < 6 ∧
        parse_packet jsonLoads now data = .err "Packet too short") ∨
      (6 ≤ data.length ∧ ∃ p, parse_packet jsonLoads now data = .packet p ∧
        ((((256 * data.getD 0 0 + data.getD 1 0) >>> 11) &&& 1 = 0 ∨
            data.length < 17) → p.telemetry = Telemetry.raw (data.drop 6)) ∧
        (∀ t, p.telemetry = Telemetry.json t →
          jsonLoads ((data.drop 17).take (data.length - 2 - 17)) = some t)) := by
  by_cases h6 : data.length < 6
  · exact Or.inl ⟨h6, by unfold parse_packet; rw [if_pos h6]⟩
  · refine Or.inr ⟨by omega, ?_⟩
    unfold parse_packet
    rw [if_neg h6]
    refine ⟨_, rfl, ?_, ?_⟩
    · intro hcond
      show (if _ ∧ _ then _ else Telemetry.raw (data.drop 6)) =
        Telemetry.raw (data.drop 6)
      rcases hcond with hc | hc
      · rw [if_neg]
        intro hand
        exact hand.1 hc
      · rw [if_neg]
        intro hand
        omega
    · intro t ht
      revert ht
      show (if _ ∧ _ then _ else Telemetry.raw (data.drop 6)) = _ → _
      split
      · split
        · cases hj : jsonLoads ((data.drop 17).take (data.length - 2 - 17)) with
          | some u => simp [hj]
          | none => simp [hj]
        · intro ht
          exact absurd ht (by simp)
      · intro ht
        exact absurd ht (by simp)

/-! ## Claim C7: the decoder never checks the CRC or the length field -/

/-- Evaluation of `parse_packet` on `body ++ [x1, x2]` for a body of at
least 18 bytes with the secondary-header flag set: the result depends
only on `body`. -/
theorem parse_append2 {T : Type} (jsonLoads : List Nat → Option T)
    (now : String) (body : List Nat) (x1 x2 : Nat)
    (hlen : 18 ≤ body.length)
    (hflag : ((256 * body.getD 0 0 + body.getD 1 0) >>> 11) &&& 1 = 1) :
    parse_packet jsonLoads now (body ++ [x1, x2]) = .packet
      { version := ((256 * body.getD 0 0 + body.getD 1 0) >>> 13) &&& 7
        ptype := if ((256 * body.getD 0 0 + body.getD 1 0) >>> 12) &&& 1 = 0
          then "TM" else "TC"
        apid := (256 * body.getD 0 0 + body.getD 1 0) &&& 0x7FF
        sequence_flags := ((256 * body.getD 2 0 + body.getD 3 0) >>> 14) &&& 3
        sequence_count := (256 * body.getD 2 0 + body.getD 3 0) &&& 0x3FFF
        data_length := 256 * body.getD 4 0 + body.getD 5 0
        telemetry := match jsonLoads (body.drop 17) with
          | some t => .json t
          | none => .raw (body.drop 17)
        raw_size := body.length + 2
        timestamp := now } := by
  have hlen' : (body ++ [x1, x2]).length = body.length + 2 := by simp
  have hg : ∀ i, i < 6 → (body ++ [x1, x2]).getD i 0 = body.getD i 0 := by
    intro i hi
    exact List.getD_append body [x1, x2] 0 i (by omega)
  unfold parse_packet
  rw [hlen']
  rw [if_neg (by omega)]
  simp only [hg 0 (by omega), hg 1 (by omega), hg 2 (by omega),
    hg 3 (by omega), hg 4 (by omega), hg 5 (by omega)]
  rw [if_pos (And.intro (by omega) (by omega : 17 ≤ body.length + 2))]
  rw [if_pos (by omega : 17 < body.length + 2 - 2)]
  have hdrop : (body ++ [x1, x2]).drop 17 = body.drop 17 ++ [x1, x2] := by
    rw [List.drop_append_eq_append_drop]
    rw [show 17 - body.length = 0 by omega]
    rfl
  have htake : (body.drop 17 ++ [x1, x2]).take (body.length + 2 - 2 - 17) =
      body.drop 17 := by
    rw [show body.length + 2 - 2 - 17 = (body.drop 17).length by
      rw [List.length_drop]; omega]
    exact List.take_left _ _
  rw [hdrop, htake]

/-- Evaluation of `parse_packet` on an explicit 6-byte header followed by
at least 14 more bytes, with the secondary-header flag set. -/
theorem parse_cons6 {T : Type} (jsonLoads : List Nat → Option T)
    (now : String) (a b c d l1 l2 : Nat) (rest : List Nat)
    (hlen : 14 ≤ rest.length)
    (hflag : ((256 * a + b) >>> 11) &&& 1 = 1) :
    parse_packet jsonLoads now (a :: b :: c :: d :: l1 :: l2 :: rest) = .packet
      { version := ((256 * a + b) >>> 13) &&& 7
        ptype := if ((256 * a + b) >>> 12) &&& 1 = 0 then "TM" else "TC"
        apid := (256 * a + b) &&& 0x7FF
        sequence_flags := ((256 * c + d) >>> 14) &&& 3
        sequence_count := (256 * c + d) &&& 0x3FFF
        data_length := 256 * l1 + l2
        telemetry := match jsonLoads ((rest.drop 11).take (rest.length - 13)) with
          | some t => .json t
          | none => .raw ((rest.drop 11).take (rest.length - 13))
        raw_size := 6 + rest.length
        timestamp := now } := by
  have hlen' : (a :: b :: c :: d :: l1 :: l2 :: rest).length = 6 + rest.length := by
    simp
    omega
  unfold parse_packet
  rw [hlen']
  rw [if_neg (by omega)]
  simp only [List.getD_cons_zero, List.getD_cons_succ]
  rw [if_pos (And.intro (by omega) (by omega : 17 ≤ 6 + rest.length))]
  rw [if_pos (by omega : 17 < 6 + rest.length - 2)]
  have hdrop : (a :: b :: c :: d :: l1 :: l2 :: rest).drop 17 = rest.drop 11 := by
    simp [List.drop_succ_cons]
  have hidx : 6 + rest.length - 2 - 17 = rest.length - 13 := by omega
  rw [hdrop, hidx]

/-- C7: `parse_packet` never verifies the CRC and never rejects a
declared-length mismatch.  (a) For every buffer of at least 20 bytes
(split as an 18-byte-or-more prefix plus the 2 trailing CRC bytes) with
the secondary-header flag set, the decode result is invariant under
replacing the 2 trailing bytes.  (b) Changing the declared length field
(bytes 4–5) changes only the reported `data_length`; decoding still
succeeds with all other fields and the telemetry unchanged. -/
theorem claim_C7_no_crc_or_length_check {T : Type}
    (jsonLoads : List Nat → Option T) (now : String) :
    (∀ (body : List Nat) (x1 x2 y1 y2 : Nat),
      18 ≤ body.length →
      ((256 * body.getD 0 0 + body.getD 1 0) >>> 11) &&& 1 = 1 →
      parse_packet jsonLoads now (body ++ [x1, x2]) =
        parse_packet jsonLoads now (body ++ [y1, y2])) ∧
    (∀ (a b c d l1 l2 m1 m2 : Nat) (rest : List Nat),
      14 ≤ rest.length →
      ((256 * a + b) >>> 11) &&& 1 = 1 →
      ∃ p, parse_packet jsonLoads now (a :: b :: c :: d :: l1 :: l2 :: rest) =
          .packet p ∧
        p.data_length = 256 * l1 + l2 ∧
        parse_packet jsonLoads now (a :: b :: c :: d :: m1 :: m2 :: rest) =
          .packet { p with data_length := 256 * m1 + m2 }) := by
  constructor
  · intro body x1 x2 y1 y2 hlen hflag
    rw [parse_append2 jsonLoads now body x1 x2 hlen hflag,
      parse_append2 jsonLoads now body y1 y2 hlen hflag]
  · intro a b c d l1 l2 m1 m2 rest hlen hflag
    exact ⟨_, parse_cons6 jsonLoads now a b c d l1 l2 rest hlen hflag, rfl,
      parse_cons6 jsonLoads now a b c d m1 m2 rest hlen hflag⟩

theorem claim_C7_witness :
    (parse_packet (fun _ : List Nat => (none : Option Unit)) ""
        ([8, 0, 192, 0, 0, 13, 0, 0, 0, 0, 1, 3, 1, 3, 232, 7, 208, 65] ++ [0, 0]) =
      parse_packet (fun _ : List Nat => (none : Option Unit)) ""
        ([8, 0, 192, 0, 0, 13, 0, 0, 0, 0, 1, 3, 1, 3, 232, 7, 208, 65] ++ [9, 9])) ∧
    (∃ p, parse_packet (fun _ : List Nat => (none : Option Unit)) ""
        (8 :: 0 :: 192 :: 0 :: 0 :: 13 ::
          [0, 0, 0, 0, 1, 3, 1, 3, 232, 7, 208, 65, 0, 0]) = .packet p ∧
      p.data_length = 256 * 0 + 13 ∧
      parse_packet (fun _ : List Nat => (none : Option Unit)) ""
        (8 :: 0 :: 192 :: 0 :: 7 :: 7 ::
          [0, 0, 0, 0, 1, 3, 1, 3, 232, 7, 208, 65, 0, 0]) =
        .packet { p with data_length := 256 * 7 + 7 }) :=
  ⟨(claim_C7_no_crc_or_length_check (fun _ => none) "").1
      [8, 0, 192, 0, 0, 13, 0, 0, 0, 0, 1, 3, 1, 3, 232, 7, 208, 65]
      0 0 9 9 (by norm_num) (by decide),
    (claim_C7_no_crc_or_length_check (fun _ => none) "").2
      8 0 192 0 0 13 7 7 [0, 0, 0, 0, 1, 3, 1, 3, 232, 7, 208, 65, 0, 0]
      (by norm_num) (by decide)⟩

/-! ## Python values and dict primitives

Parameter values flow through the handlers untouched, so floats are
carried symbolically as rationals (`json.loads`/the handlers perform no
float arithmetic).  `PVal.isNum` embeds Python's
`isinstance(value, (int, float))`; note that Python's `bool` is a
subclass of `int`, so `isinstance(True, int)` is `True` — load-bearing
for claim C10. -/

inductive PVal where
  | pint : Int → PVal
  | pfloat : ℚ → PVal
  | pbool : Bool → PVal
  | pstr : String → PVal
  | pnone : PVal
  deriving DecidableEq

/-- Python `isinstance(v, (int, float))` (`bool` is a subclass of `int`). -/
def PVal.isNum : PVal → Bool
  | .pint _ => true
  | .pfloat _ => true
  | .pbool _ => true
  | _ => false

/-- Python dict assignment `d[k] = v`: replaces the value in place when
the key is present, appends a new entry otherwise (insertion order is
preserved, as for Python dicts). -/
def dictSet {K V : Type} [DecidableEq K] : List (K × V) → K → V → List (K × V)
  | [], k, v => [(k, v)]
  | (k', v') :: rest, k, v =>
      if k' = k then (k', v) :: rest else (k', v') :: dictSet rest k v

theorem lookup_dictSet_self {K V : Type} [DecidableEq K]
    (store : List (K × V)) (k : K) (v : V) :
    (dictSet store k v).lookup k = some v := by
  induction store with
  | nil => simp [dictSet]
  | cons hd t ih =>
      obtain ⟨k', v'⟩ := hd
      by_cases hk : k' = k
      · subst hk
        simp [dictSet, List.lookup]
      · simp only [dictSet, if_neg hk, List.lookup]
        rw [show (k == k') = false from beq_eq_false_iff_ne.mpr (Ne.symm hk)]
        exact ih

theorem lookup_dictSet_ne {K V : Type} [DecidableEq K]
    (store : List (K × V)) (k k' : K) (v : V) (h : k' ≠ k) :
    (dictSet store k v).lookup k' = store.lookup k' := by
  induction store with
  | nil =>
      simp only [dictSet, List.lookup]
      rw [show (k' == k) = false from beq_eq_false_iff_ne.mpr h]
  | cons hd t ih =>
      obtain ⟨k₀, v₀⟩ := hd
      by_cases hk : k₀ = k
      · subst hk
        simp only [dictSet, if_pos rfl, List.lookup]
        rw [show (k' == k₀) = false from beq_eq_false_iff_ne.mpr h]
      · simp only [dictSet, if_neg hk, List.lookup]
        cases hbe : k' == k₀ with
        | false => simpa [hbe] using ih
        | true => simp [hbe]

theorem keys_dictSet {K V : Type} [DecidableEq K]
    (store : List (K × V)) (k : K) (v : V) (h : (store.map Prod.fst).Nodup) :
    ((dictSet store k v).map Prod.fst).Nodup := by
  have hset : ∀ (s : List (K × V)), (dictSet s k v).map Prod.fst =
      if k ∈ s.map Prod.fst then s.map Prod.fst else s.map Prod.fst ++ [k] := by
    intro s
    induction s with
    | nil => simp [dictSet]
    | cons hd t ih =>
        obtain ⟨k₀, v₀⟩ := hd
        by_cases hk : k₀ = k
        · subst hk
          simp [dictSet]
        · have hne : ¬ (k = k₀) := fun e => hk e.symm
          simp only [dictSet, if_neg hk, List.map_cons, ih]
          by_cases hmem : k ∈ t.map Prod.fst
          · simp [List.mem_cons, hmem, hne]
          · simp [List.mem_cons, hmem, hne]
  rw [hset]
  split
  · exact h
  · next hmem =>
      refine List.Nodup.append h (List.nodup_singleton _) ?_
      intro a ha hak
      rw [List.mem_singleton] at hak
      subst hak
      exact hmem ha

theorem getD_map_lt {α β : Type} (f : α → β) (l : List α) (i : Nat)
    (d : β) (d' : α) (h : i < l.length) :
    (l.map f).getD i d = f (l.getD i d') := by
  induction l generalizing i with
  | nil => simp at h
  | cons a t ih =>
      cases i with
      | zero => simp
      | succ n =>
          simp only [List.map_cons, List.getD_cons_succ]
          exact ih n (by simpa using h)

/-! ## Parameter store and GetParameterValues (`mo_service.py`) -/

/-- Python `str.upper()` (the parameter names in play are ASCII; like
Python, `Char.toUpper` maps only `a`–`z`). -/
def pyUpper (s : String) : String := String.mk (s.data.map Char.toUpper)

/-- One `parameter_store` entry: the dict
`{"value": ..., "timestamp": ..., "validity": ..., "units": ..., "quality": ..., "source": ...}`.
Optional fields model keys that may be absent (the receiver writes
entries without a `"quality"` key; the handlers read them with
`dict.get`). -/
structure ParamData where
  value : PVal
  timestamp : String
  validity : String
  units : Option String := none
  quality : Option String := none
  source : Option String := none
  deriving DecidableEq

/-- The `Parameter` pydantic response model of `mo_service.py`. -/
structure Parameter where
  name : String
  value : PVal
  timestamp : String
  validity : String
  units : Option String
  quality : String
  deriving DecidableEq

/-- `GetParameterValuesResponse` of `mo_service.py`. -/
structure GetParameterValuesResponse where
  parameters : List Parameter
  requestId : String
  timestamp : String
  deriving DecidableEq

/-- Default used only to state positional facts via `List.getD`. -/
def defaultParameter : Parameter :=
  { name := "", value := .pnone, timestamp := "", validity := "", units := none,
    quality := "" }

/-- `get_ccsds_parameters` (`POST /ccsds/parameters`): for each requested
id, upper-case it, look it up in `parameter_store`; found → echo the
stored fields (`quality` read with `.get("quality", "GOOD")`); missing →
synthesize `value=None`, `validity="INVALID"`, `quality="UNKNOWN"`,
timestamp now.  `now` stands for `datetime.now(timezone.utc).isoformat()`. -/
def get_ccsds_parameters (store : List (String × ParamData)) (now : String)
    (parameterIds : List String) (requestId : String) :
    GetParameterValuesResponse :=
  { parameters := parameterIds.map (fun param_id =>
      let param_id_upper := pyUpper param_id
      match store.lookup param_id_upper with
      | some param_data =>
          { name := param_id_upper
            value := param_data.value
            timestamp := param_data.timestamp
            validity := param_data.validity
            units := param_data.units
            quality := param_data.quality.getD "GOOD" }
      | none =>
          { name := param_id_upper
            value := .pnone
            timestamp := now
            validity := "INVALID"
            units := none
            quality := "UNKNOWN" })
    requestId := requestId
    timestamp := now }

/-- C2: the response of `get_ccsds_parameters` has exactly one result per
requested identifier, in request order; an identifier present in the
store (after upper-casing) echoes the stored
value/timestamp/validity/quality/units (`quality` defaulting to GOOD when
the stored dict has no such key), an absent identifier yields value
absent (`None`), validity INVALID, quality UNKNOWN and timestamp now; the
whole request never fails (the handler is a total function). -/
theorem claim_C2_get_parameter_values (store : List (String × ParamData))
    (now : String) (ids : List String) (requestId : String) :
    (get_ccsds_parameters store now ids requestId).requestId = requestId ∧
    (get_ccsds_parameters store now ids requestId).parameters.length =
      ids.length ∧
    ∀ i, i < ids.length →
      ((get_ccsds_parameters store now ids requestId).parameters.getD i
          defaultParameter).name = pyUpper (ids.getD i "") ∧
      (∀ pd, store.lookup (pyUpper (ids.getD i "")) = some pd →
        (get_ccsds_parameters store now ids requestId).parameters.getD i
          defaultParameter =
          { name := pyUpper (ids.getD i "")
            value := pd.value
            timestamp := pd.timestamp
            validity := pd.validity
            units := pd.units
            quality := pd.quality.getD "GOOD" }) ∧
      (store.lookup (pyUpper (ids.getD i "")) = none →
        (get_ccsds_parameters store now ids requestId).parameters.getD i
          defaultParameter =
          { name := pyUpper (ids.getD i "")
            value := .pnone
            timestamp := now
            validity := "INVALID"
            units := none
            quality := "UNKNOWN" }) := by
  refine ⟨rfl, by simp [get_ccsds_parameters], ?_⟩
  intro i hi
  have hq : (get_ccsds_parameters store now ids requestId).parameters.getD i
      defaultParameter =
      match store.lookup (pyUpper (ids.getD i "")) with
      | some param_data =>
          { name := pyUpper (ids.getD i "")
            value := param_data.value
            timestamp := param_data.timestamp
            validity := param_data.validity
            units := param_data.units
            quality := param_data.quality.getD "GOOD" }
      | none =>
          { name := pyUpper (ids.getD i "")
            value := .pnone
            timestamp := now
            validity := "INVALID"
            units := none
            quality := "UNKNOWN" } :=
    getD_map_lt _ ids i defaultParameter "" hi
  rw [hq]
  cases hl : store.lookup (pyUpper (ids.getD i "")) with
  | some pd =>
      refine ⟨rfl, ?_, ?_⟩
      · intro pd' hpd'
        injection hpd' with h
        subst h
        rfl
      · intro hnone
        exact Option.noConfusion hnone
  | none =>
      refine ⟨rfl, ?_, fun _ => rfl⟩
      intro pd' hpd'
      exact Option.noConfusion hpd'

/-- Concrete two-entry store used by witnesses. -/
def sampleStore : List (String × ParamData) :=
  [("A", { value := .pfloat 1, timestamp := "T0", validity := "VALID" }),
   ("B", { value := .pint 2, timestamp := "T0", validity := "VALID" })]

theorem claim_C2_witness :
    ((get_ccsds_parameters sampleStore "NOW" ["a", "b", "missing"]
        "R1").parameters.getD 2 defaultParameter).name = "MISSING" ∧
      (get_ccsds_parameters sampleStore "NOW" ["a", "b", "missing"]
        "R1").parameters.getD 2 defaultParameter =
        { name := "MISSING", value := .pnone, timestamp := "NOW",
          validity := "INVALID", units := none, quality := "UNKNOWN" } ∧
      (get_ccsds_parameters sampleStore "NOW" ["a", "b", "missing"]
        "R1").parameters.getD 0 defaultParameter =
        { name := "A", value := .pfloat 1, timestamp := "T0",
          validity := "VALID", units := none, quality := "GOOD" } := by
  have h := claim_C2_get_parameter_values sampleStore "NOW"
    ["a", "b", "missing"] "R1"
  obtain ⟨-, -, hall⟩ := h
  have h2 := hall 2 (by norm_num)
  have h0 := hall 0 (by norm_num)
  refine ⟨?_, ?_, ?_⟩
  · exact h2.1.trans (by rfl)
  · exact (h2.2.2 (by rfl)).trans (by rfl)
  · exact (h0.2.1 { value := .pfloat 1, timestamp := "T0", validity := "VALID" }
      (by rfl)).trans (by rfl)

/-! ## The XML MO service (`mo_service_xml.py`)

`json_get_parameter_values` (`POST /json/parameters`) is the JSON
GetParameterValues of the XML service (like `get_ccsds_parameters` but
its `JSONParameter` model has no quality field).
`_process_set_parameter_values_xml` and
`_process_get_parameter_values_xml` handle the XML operations; the
extraction of `(parameterId, parameterValue)` pairs from the
`parameterSetList` XML tree (lines 313–325) yields the `param_sets`
argument, the value elements being opaque (type parameter `V`). -/

/-- `JSONParameter` pydantic model of `mo_service_xml.py`. -/
structure JSONParameter where
  name : String
  value : PVal
  timestamp : String
  validity : String
  units : Option String
  deriving DecidableEq

/-- `JSONGetParameterValuesResponse` of `mo_service_xml.py`. -/
structure JSONGetParameterValuesResponse where
  parameters : List JSONParameter
  requestId : String
  timestamp : String
  deriving DecidableEq

/-- Default used only to state positional facts via `List.getD`. -/
def defaultJSONParameter : JSONParameter :=
  { name := "", value := .pnone, timestamp := "", validity := "", units := none }

/-- `json_get_parameter_values` (`POST /json/parameters`). -/
def json_get_parameter_values (store : List (String × ParamData))
    (now : String) (parameterIds : List String) (requestId : String) :
    JSONGetParameterValuesResponse :=
  { parameters := parameterIds.map (fun param_id =>
      let param_id_upper := pyUpper param_id
      match store.lookup param_id_upper with
      | some param_data =>
          { name := param_id_upper
            value := param_data.value
            timestamp := param_data.timestamp
            validity := param_data.validity
            units := param_data.units }
      | none =>
          { name := param_id_upper
            value := .pnone
            timestamp := now
            validity := "INVALID"
            units := none })
    requestId := requestId
    timestamp := now }

/-- One entry of `command_queue` as appended by
`_process_set_parameter_values_xml`. -/
structure SetCommandRecord (V : Type) where
  request_id : String
  parameters : List (String × V)
  timestamp : String

/-- One `parameterResult` entry of the `SetParameterValuesResponse`. -/
structure SetParameterResult where
  parameterId : String
  status : String
  completionTime : String
  deriving DecidableEq

/-- Default used only to state positional facts via `List.getD`. -/
def defaultSetParameterResult : SetParameterResult :=
  { parameterId := "", status := "", completionTime := "" }

/-- The `SetParameterValuesResponse` dict built by the handler. -/
structure SetParameterValuesResponse where
  parameterResult : List SetParameterResult
  requestId : String
  timestamp : String
  status : String

/-- The mutable module state the set handler touches: `parameter_store`
and `command_queue`. -/
structure XmlServiceState (V : Type) where
  parameter_store : List (String × ParamData)
  command_queue : List (SetCommandRecord V)

/-- `_process_set_parameter_values_xml` (lines 311–359): builds a
per-pair SUCCESS response and appends one command record holding the
pairs to `command_queue`.  It never touches `parameter_store`. -/
def process_set_parameter_values_xml {V : Type} (st : XmlServiceState V)
    (request_id now : String) (param_sets : List (String × V)) :
    XmlServiceState V × SetParameterValuesResponse :=
  ({ parameter_store := st.parameter_store
     command_queue := st.command_queue ++
       [{ request_id := request_id, parameters := param_sets, timestamp := now }] },
   { parameterResult := param_sets.map (fun param_set =>
       { parameterId := param_set.1, status := "SUCCESS", completionTime := now })
     requestId := request_id
     timestamp := now
     status := "SUCCESS" })

/-- C1 counterexample: starting from an empty store, a
SetParameterValues request for `("NEW_PARAM", v)` reports SUCCESS for the
pair, yet leaves `parameter_store` without the key, and a subsequent
GetParameterValues for `NEW_PARAM` returns validity INVALID with value
absent — refuting the claim that the pair is written to ParameterStore
and read back VALID. -/
theorem claim_C1_counterexample :
    ((process_set_parameter_values_xml
        { parameter_store := [], command_queue := [] } "REQ1" "T0"
        [("NEW_PARAM", ())]).2.parameterResult.getD 0
        defaultSetParameterResult).status = "SUCCESS" ∧
    (process_set_parameter_values_xml
        { parameter_store := [], command_queue := [] } "REQ1" "T0"
        [("NEW_PARAM", ())]).1.parameter_store.lookup "NEW_PARAM" = none ∧
    ((json_get_parameter_values
        (process_set_parameter_values_xml
          { parameter_store := [], command_queue := [] } "REQ1" "T0"
          [("NEW_PARAM", ())]).1.parameter_store
        "T1" ["NEW_PARAM"] "REQ2").parameters.getD 0
        defaultJSONParameter).validity = "INVALID" ∧
    ((json_get_parameter_values
        (process_set_parameter_values_xml
          { parameter_store := [], command_queue := [] } "REQ1" "T0"
          [("NEW_PARAM", ())]).1.parameter_store
        "T1" ["NEW_PARAM"] "REQ2").parameters.getD 0
        defaultJSONParameter).value = .pnone :=
  ⟨rfl, rfl, rfl, rfl⟩

/-- C1 (amended): for every SetParameterValues pair list, the handler
appends one pending Command record holding the pairs, reports SUCCESS
for every pair in request order, and leaves ParameterStore unchanged; a
subsequent GetParameterValues for a parameterId absent from the store
(which any id new in the request is) returns value absent with validity
INVALID rather than the written value with validity VALID. -/
theorem claim_C1_set_parameter_values {V : Type} (st : XmlServiceState V)
    (request_id now : String) (param_sets : List (String × V)) :
    (process_set_parameter_values_xml st request_id now
        param_sets).1.parameter_store = st.parameter_store ∧
    (process_set_parameter_values_xml st request_id now
        param_sets).1.command_queue = st.command_queue ++
      [{ request_id := request_id, parameters := param_sets, timestamp := now }] ∧
    (process_set_parameter_values_xml st request_id now
        param_sets).2.parameterResult = param_sets.map (fun param_set =>
      { parameterId := param_set.1, status := "SUCCESS", completionTime := now }) ∧
    (process_set_parameter_values_xml st request_id now
        param_sets).2.requestId = request_id ∧
    (∀ pid now2 req2, st.parameter_store.lookup (pyUpper pid) = none →
      ((json_get_parameter_values
          (process_set_parameter_values_xml st request_id now
            param_sets).1.parameter_store now2 [pid] req2).parameters.getD 0
          defaultJSONParameter).validity = "INVALID" ∧
      ((json_get_parameter_values
          (process_set_parameter_values_xml st request_id now
            param_sets).1.parameter_store now2 [pid] req2).parameters.getD 0
          defaultJSONParameter).value = .pnone) := by
  refine ⟨rfl, rfl, rfl, rfl, ?_⟩
  intro pid now2 req2 hnone
  have hmap : (json_get_parameter_values st.parameter_store now2 [pid]
      req2).parameters.getD 0 defaultJSONParameter =
      match st.parameter_store.lookup (pyUpper pid) with
      | some param_data =>
          { name := pyUpper pid
            value := param_data.value
            timestamp := param_data.timestamp
            validity := param_data.validity
            units := param_data.units }
      | none =>
          { name := pyUpper pid
            value := .pnone
            timestamp := now2
            validity := "INVALID"
            units := none } := rfl
  show ((json_get_parameter_values st.parameter_store now2 [pid]
      req2).parameters.getD 0 defaultJSONParameter).validity = "INVALID" ∧
    ((json_get_parameter_values st.parameter_store now2 [pid]
      req2).parameters.getD 0 defaultJSONParameter).value = .pnone
  rw [hmap, hnone]
  exact ⟨rfl, rfl⟩

theorem claim_C1_witness :
    ((json_get_parameter_values
        (process_set_parameter_values_xml
          ({ parameter_store := sampleStore, command_queue := [] } :
            XmlServiceState Unit) "R1" "T0"
          [("MODE_SELECTION", ())]).1.parameter_store "T1" ["mode_selection"]
        "R2").parameters.getD 0 defaultJSONParameter).validity = "INVALID" ∧
    ((json_get_parameter_values
        (process_set_parameter_values_xml
          ({ parameter_store := sampleStore, command_queue := [] } :
            XmlServiceState Unit) "R1" "T0"
          [("MODE_SELECTION", ())]).1.parameter_store "T1" ["mode_selection"]
        "R2").parameters.getD 0 defaultJSONParameter).value = .pnone :=
  (claim_C1_set_parameter_values
      { parameter_store := sampleStore, command_queue := [] } "R1" "T0"
      [("MODE_SELECTION", ())]).2.2.2.2 "mode_selection" "T1" "R2" (by decide)

/-! ## Claim C8: the telemetry log (`mo_service.py`, `CCSDSReceiver.run`) -/

/-- The store step of `CCSDSReceiver.run` in `mo_service.py`: on a
successfully parsed datagram, `telemetry_store[sequence_count] = parsed`
(Python dict assignment, i.e. overwrite on key collision); on an error
dict (`"error" in parsed`), the store is left unchanged (the loop logs
and continues). -/
def receiver_store_step {T : Type} (jsonLoads : List Nat → Option T)
    (now : String) (store : List (Nat × Packet T)) (data : List Nat) :
    List (Nat × Packet T) :=
  match parse_packet jsonLoads now data with
  | .packet parsed => dictSet store parsed.sequence_count parsed
  | .err _ => store

/-- C8: every decoded packet is stored keyed by its `sequence_count`,
which is the 14-bit masked field and therefore wraps at 16384; a later
packet with the same sequence count silently overwrites the earlier
record (`dictSet` replaces in place), keys not equal to it are
untouched, and key-uniqueness is preserved, so the log holds at most one
record per sequence count. -/
theorem claim_C8_telemetry_log_keyed_by_seq {T : Type}
    (jsonLoads : List Nat → Option T) (now : String) :
    (∀ (store : List (Nat × Packet T)) (data : List Nat) (p : Packet T),
      parse_packet jsonLoads now data = .packet p →
      receiver_store_step jsonLoads now store data =
        dictSet store p.sequence_count p ∧ p.sequence_count < 16384) ∧
    (∀ (store : List (Nat × Packet T)) (k : Nat) (p : Packet T),
      (dictSet store k p).lookup k = some p ∧
      (∀ k', k' ≠ k → (dictSet store k p).lookup k' = store.lookup k') ∧
      ((store.map Prod.fst).Nodup → ((dictSet store k p).map Prod.fst).Nodup)) := by
  constructor
  · intro store data p hp
    constructor
    · unfold receiver_store_step
      rw [hp]
    · revert hp
      unfold parse_packet
      split
      · intro hp
        exact ParseResult.noConfusion hp
      · intro hp
        injection hp with hp
        subst hp
        show (256 * data.getD 2 0 + data.getD 3 0) &&& 16383 < 16384
        have : (256 * data.getD 2 0 + data.getD 3 0) &&& 16383 ≤ 16383 :=
          Nat.and_le_right
        omega
  · intro store k p
    exact ⟨lookup_dictSet_self store k p,
      fun k' h => lookup_dictSet_ne store k k' p h,
      keys_dictSet store k p⟩

/-- Concrete decoded packets used by the C8 witness. -/
def samplePacketA : Packet Unit :=
  { version := 0, ptype := "TM", apid := 0, sequence_flags := 3,
    sequence_count := 5, data_length := 13, telemetry := .raw [65],
    raw_size := 20, timestamp := "" }

/-- A second packet with the same sequence count. -/
def samplePacketB : Packet Unit :=
  { version := 0, ptype := "TM", apid := 0, sequence_flags := 3,
    sequence_count := 5, data_length := 99, telemetry := .raw [66],
    raw_size := 20, timestamp := "" }

theorem claim_C8_witness :
    (receiver_store_step (fun _ : List Nat => (none : Option Unit)) "" []
        [8, 0, 192, 5, 0, 13, 0, 0, 0, 0, 1, 3, 1, 3, 232, 7, 208, 65, 0, 0] =
      dictSet [] samplePacketA.sequence_count samplePacketA ∧
      samplePacketA.sequence_count < 16384) ∧
    (dictSet [(5, samplePacketA)] 5 samplePacketB).lookup 5 =
      some samplePacketB :=
  ⟨(claim_C8_telemetry_log_keyed_by_seq (fun _ => none) "").1 []
      [8, 0, 192, 5, 0, 13, 0, 0, 0, 0, 1, 3, 1, 3, 232, 7, 208, 65, 0, 0]
      samplePacketA (by rfl),
    ((claim_C8_telemetry_log_keyed_by_seq (fun _ => none) "").2
      [(5, samplePacketA)] 5 samplePacketB).1⟩

/-! ## Claim C10: XML GetParameterValues value encoding
(`mo_service_xml.py`, `_process_get_parameter_values_xml`, lines 269-295) -/

/-- `parameterValue` child of an XML parameter result: either
`{"floatValue": v}` or `{"stringValue": s}`. -/
inductive XmlParamValue where
  | floatValue : PVal → XmlParamValue
  | stringValue : String → XmlParamValue
  deriving DecidableEq

/-- One `parameter` entry of the XML `GetParameterValuesResponse`. -/
structure XmlGPVResult where
  parameterId : String
  parameterValue : XmlParamValue
  validity : String
  generationTime : String
  qualityIndicator : String
  deriving DecidableEq

/-- Default used only to state positional facts via `List.getD`. -/
def defaultXmlGPVResult : XmlGPVResult :=
  { parameterId := "", parameterValue := .stringValue "", validity := "",
    generationTime := "", qualityIndicator := "" }

/-- Loop body of `_process_get_parameter_values_xml`: one result per
requested id.  The id is the text of a `parameterId` element
(`None` when the element is empty); `param_id.upper() if param_id else ""`.
Found: `{"floatValue": value if isinstance(value, (int, float)) else 0.0}`
with the stored validity/timestamp and hard-coded `"GOOD"`.
Missing: `{"stringValue": "NOT_FOUND"}`, INVALID, UNKNOWN, timestamp now. -/
def xmlParamResult (store : List (String × ParamData)) (now : String)
    (param_id : Option String) : XmlGPVResult :=
  let param_id_upper := match param_id with
    | some s => if s = "" then "" else pyUpper s
    | none => ""
  match store.lookup param_id_upper with
  | some param_data =>
      { parameterId := param_id_upper
        parameterValue := .floatValue
          (if param_data.value.isNum then param_data.value else .pfloat 0)
        validity := param_data.validity
        generationTime := param_data.timestamp
        qualityIndicator := "GOOD" }
  | none =>
      { parameterId := param_id_upper
        parameterValue := .stringValue "NOT_FOUND"
        validity := "INVALID"
        generationTime := now
        qualityIndicator := "UNKNOWN" }

/-- The XML `GetParameterValuesResponse` dict built by the handler. -/
structure XmlGPVResponse where
  parameter : List XmlGPVResult
  requestId : String
  timestamp : String
  status : String

/-- `_process_get_parameter_values_xml`: one result per extracted
parameter id, overall status SUCCESS. -/
def process_get_parameter_values_xml (store : List (String × ParamData))
    (now request_id : String) (param_ids : List (Option String)) :
    XmlGPVResponse :=
  { parameter := param_ids.map (xmlParamResult store now)
    requestId := request_id
    timestamp := now
    status := "SUCCESS" }

/-- A boolean-valued store entry (Python `True`). -/
def boolParam : ParamData :=
  { value := .pbool true, timestamp := "T0", validity := "VALID" }

/-- A string-valued store entry. -/
def modeParam : ParamData :=
  { value := .pstr "SAFE_MODE", timestamp := "T0", validity := "VALID" }

/-- C10 counterexample: a stored boolean parameter (`value = True`) is
*not* reported as `floatValue 0.0` — Python's `bool` is a subclass of
`int`, so `isinstance(True, (int, float))` is `True` and the boolean is
passed through as the `floatValue` — refuting the claim that a found
parameter whose stored value is "not an int or float" (a string or
boolean) always has its value dropped to 0.0. -/
theorem claim_C10_counterexample :
    ((process_get_parameter_values_xml
        [("FLAG", boolParam)] "T1" "R1"
        [some "FLAG"]).parameter.getD 0 defaultXmlGPVResult).parameterValue =
      .floatValue (.pbool true) ∧
    XmlParamValue.floatValue (.pbool true) ≠ .floatValue (.pfloat 0) := by
  exact ⟨rfl, by decide⟩

/-- C10 (amended): in the XML encoding of GetParameterValues, a found
parameter whose stored value is neither an int, a float nor a bool (in
Python `bool` is a subclass of `int`, so booleans pass the
`isinstance(value, (int, float))` test and are passed through) is
reported as `floatValue 0.0` — in particular a string value is dropped —
and a missing parameter is reported as `stringValue "NOT_FOUND"` with
validity INVALID, quality UNKNOWN and timestamp now, rather than with an
absent value; so the XML response is not value-faithful to the store for
string-valued parameters. -/
theorem claim_C10_xml_value_encoding (store : List (String × ParamData))
    (now request_id : String) (param_ids : List (Option String)) :
    (process_get_parameter_values_xml store now request_id
        param_ids).parameter = param_ids.map (xmlParamResult store now) ∧
    ∀ (s : String) (pd : ParamData),
      (store.lookup (pyUpper s) = some pd → s ≠ "" →
        ((pd.value.isNum = false →
          (xmlParamResult store now (some s)).parameterValue =
            .floatValue (.pfloat 0)) ∧
        (∀ str, pd.value = .pstr str →
          (xmlParamResult store now (some s)).parameterValue =
            .floatValue (.pfloat 0)) ∧
        (∀ b, pd.value = .pbool b →
          (xmlParamResult store now (some s)).parameterValue =
            .floatValue (.pbool b)) ∧
        (xmlParamResult store now (some s)).validity = pd.validity)) ∧
      (store.lookup (pyUpper s) = none → s ≠ "" →
        (xmlParamResult store now (some s)).parameterValue =
          .stringValue "NOT_FOUND" ∧
        (xmlParamResult store now (some s)).validity = "INVALID" ∧
        (xmlParamResult store now (some s)).qualityIndicator = "UNKNOWN" ∧
        (xmlParamResult store now (some s)).generationTime = now) := by
  refine ⟨rfl, ?_⟩
  intro s pd
  constructor
  · intro hl hs
    have hu : xmlParamResult store now (some s) =
        match store.lookup (pyUpper s) with
        | some param_data =>
            { parameterId := pyUpper s
              parameterValue := .floatValue
                (if param_data.value.isNum then param_data.value else .pfloat 0)
              validity := param_data.validity
              generationTime := param_data.timestamp
              qualityIndicator := "GOOD" }
        | none =>
            { parameterId := pyUpper s
              parameterValue := .stringValue "NOT_FOUND"
              validity := "INVALID"
              generationTime := now
              qualityIndicator := "UNKNOWN" } := by
      simp only [xmlParamResult, if_neg hs]
    have hx : xmlParamResult store now (some s) =
        { parameterId := pyUpper s
          parameterValue := .floatValue
            (if pd.value.isNum then pd.value else .pfloat 0)
          validity := pd.validity
          generationTime := pd.timestamp
          qualityIndicator := "GOOD" } := by
      rw [hu, hl]
    rw [hx]
    refine ⟨?_, ?_, ?_, rfl⟩
    · intro hnum
      simp [hnum]
    · intro str hstr
      rw [hstr]
      simp [PVal.isNum]
    · intro b hb
      rw [hb]
      simp [PVal.isNum]
  · intro hl hs
    have hu : xmlParamResult store now (some s) =
        match store.lookup (pyUpper s) with
        | some param_data =>
            { parameterId := pyUpper s
              parameterValue := .floatValue
                (if param_data.value.isNum then param_data.value else .pfloat 0)
              validity := param_data.validity
              generationTime := param_data.timestamp
              qualityIndicator := "GOOD" }
        | none =>
            { parameterId := pyUpper s
              parameterValue := .stringValue "NOT_FOUND"
              validity := "INVALID"
              generationTime := now
              qualityIndicator := "UNKNOWN" } := by
      simp only [xmlParamResult, if_neg hs]
    have hx : xmlParamResult store now (some s) =
        { parameterId := pyUpper s
          parameterValue := .stringValue "NOT_FOUND"
          validity := "INVALID"
          generationTime := now
          qualityIndicator := "UNKNOWN" } := by
      rw [hu, hl]
    rw [hx]
    exact ⟨rfl, rfl, rfl, rfl⟩

theorem claim_C10_witness :
    ((xmlParamResult [("MODE", modeParam)] "T1"
        (some "mode")).parameterValue = .floatValue (.pfloat 0)) ∧
    ((xmlParamResult [("MODE", modeParam)] "T1"
        (some "gone")).parameterValue = .stringValue "NOT_FOUND") :=
  ⟨(((claim_C10_xml_value_encoding [("MODE", modeParam)] "T1" "R1" []).2
      "mode" modeParam).1 (by decide) (by decide)).2.1 "SAFE_MODE" rfl,
    ((((claim_C10_xml_value_encoding [("MODE", modeParam)] "T1" "R1" []).2
      "gone" modeParam).2 (by decide) (by decide)).1)⟩

/-! ## Claim C9: the XML tree codec (`xml_validator.py`)

`dict_to_xml` / `xml_to_dict` convert between Python dicts and XML text.
The dict side is modelled by the mutual types `PyVal`/`PyDict`/`PyList`
(a Python dict is an insertion-ordered association list with unique
keys); the `xml.etree.ElementTree` side by `Elem`/`ElemList` (tag,
ordered attributes, optional text, ordered children).

The XML *text* layer (`ET.tostring` / `ET.fromstring`) is modelled by
`reparse`: serializing with the default `xmlns` attribute that
`dict_to_xml` sets on the root and re-parsing yields the same element
tree except that (a) every tag comes back `{namespace-uri}`-qualified —
which `_element_to_dict` strips with `tag.split('}')[1]` — and (b)
`xmlns`/`xmlns:*` attributes become namespace declarations and vanish
from `attrib`.  `ET.indent` (called before `tostring`) only touches the
text/tail of elements *with children*, which `_element_to_dict` never
reads (it reads text only for childless elements), so it is invisible at
this level. -/

mutual
inductive PyVal where
  | pstr : String → PyVal
  | pdict : PyDict → PyVal
  | plist : PyList → PyVal
  deriving DecidableEq
inductive PyDict where
  | dnil : PyDict
  | dcons : String → PyVal → PyDict → PyDict
  deriving DecidableEq
inductive PyList where
  | lnil : PyList
  | lcons : PyVal → PyList → PyList
  deriving DecidableEq
end

mutual
inductive Elem where
  | mk : String → List (String × String) → Option String → ElemList → Elem
  deriving DecidableEq
inductive ElemList where
  | enil : ElemList
  | econs : Elem → ElemList → ElemList
  deriving DecidableEq
end

def Elem.tag : Elem → String
  | .mk t _ _ _ => t

def Elem.attrs : Elem → List (String × String)
  | .mk _ a _ _ => a

def Elem.text : Elem → Option String
  | .mk _ _ x _ => x

def Elem.children : Elem → ElemList
  | .mk _ _ _ c => c

/-- Python `str()` as applied by the codec.  It is only ever applied to
values that are already strings in the normalized domain; for dicts and
lists Python would produce their `repr`, which no theorem below relies
on. -/
def pyStr : PyVal → String
  | .pstr s => s
  | .pdict _ => "<dict>"
  | .plist _ => "<list>"

/-- Python `str.strip()` (whitespace trim), embedded over the character
list so it evaluates in the kernel. -/
def pyStrip (s : String) : String :=
  String.mk (((s.data.dropWhile Char.isWhitespace).reverse.dropWhile
    Char.isWhitespace).reverse)

/-- Dict key lookup (`k in d` / `d[k]`), first match wins (keys are
unique in a Python dict). -/
def dlookup (k : String) : PyDict → Option PyVal
  | .dnil => none
  | .dcons k' v rest => if k' = k then some v else dlookup k rest

/-- Concatenation of the association lists. -/
def dappend : PyDict → PyDict → PyDict
  | .dnil, b => b
  | .dcons k v rest, b => .dcons k v (dappend rest b)

/-- Python dict assignment when the key may be present: replace in place
or append. -/
def dsetD : PyDict → String → PyVal → PyDict
  | .dnil, k, v => .dcons k v .dnil
  | .dcons k' v' rest, k, v =>
      if k' = k then .dcons k' v rest else .dcons k' v' (dsetD rest k v)

def lappend : PyList → PyList → PyList
  | .lnil, b => b
  | .lcons v rest, b => .lcons v (lappend rest b)

def eappend : ElemList → ElemList → ElemList
  | .enil, b => b
  | .econs e rest, b => .econs e (eappend rest b)

/-- The attribute list written by `dict_to_element` from an
`'@attributes'` dict: `element.set(attr, str(attr_value))` in order. -/
def attrsOf : PyDict → List (String × String)
  | .dnil => []
  | .dcons k v rest => (k, pyStr v) :: attrsOf rest

/-- The dict read back by `_element_to_dict` from `element.attrib`. -/
def attrsToDict : List (String × String) → PyDict
  | [] => .dnil
  | (k, v) :: rest => .dcons k (.pstr v) (attrsToDict rest)

/-- Characters after the first `'}'` up to the next `'}'` or the end:
Python's `tag.split('}')[1]`. -/
def stripAfterBrace : List Char → Option (List Char)
  | [] => none
  | c :: rest =>
      if c = '}' then some (rest.takeWhile (fun c' => c' ≠ '}'))
      else stripAfterBrace rest

/-- `if '}' in tag: tag = tag.split('}')[1]` of `_element_to_dict`. -/
def stripNs (s : String) : String :=
  match stripAfterBrace s.data with
  | none => s
  | some cs => String.mk cs

/-- The attribute list `dict_to_element` sets on an element built from
the dict `d`: from `d['@attributes']` when present (Python raises on a
non-dict `'@attributes'` value — that case, unreachable for normalized
trees, is modelled as no attributes). -/
def attrsOfDict (d : PyDict) : List (String × String) :=
  match dlookup "@attributes" d with
  | some (.pdict avs) => attrsOf avs
  | some _ => []
  | none => []

/-- The text `dict_to_element` sets: `str(value['#text'])` when present. -/
def textOfDict (d : PyDict) : Option String :=
  match dlookup "#text" d with
  | some tv => some (pyStr tv)
  | none => none

mutual
/-- `dict_to_element` (the inner function of
`CCSDSXMLValidator.dict_to_xml`): dict → element with attributes, text
and children from the reserved/ordinary keys; list → children all tagged
`'item'`; scalar → text `str(value)`. -/
def dict_to_element (tag : String) : PyVal → Elem
  | .pdict d => .mk tag (attrsOfDict d) (textOfDict d) (childrenOf d)
  | .plist l => .mk tag [] none (itemsToElems "item" l)
  | .pstr s => .mk tag [] (some s) .enil
termination_by structural v => v

/-- The child elements of a dict: ordinary keys in insertion order; a
list value contributes one child per item under the same tag. -/
def childrenOf : PyDict → ElemList
  | .dnil => .enil
  | .dcons k v rest =>
      if k = "@attributes" ∨ k = "#text" then childrenOf rest
      else match v with
        | .plist items => eappend (itemsToElems k items) (childrenOf rest)
        | .pdict d2 => .econs (dict_to_element k (.pdict d2)) (childrenOf rest)
        | .pstr s => .econs (dict_to_element k (.pstr s)) (childrenOf rest)
termination_by structural d => d

/-- One child per list item, all under the tag `k`. -/
def itemsToElems (k : String) : PyList → ElemList
  | .lnil => .enil
  | .lcons v rest => .econs (dict_to_element k v) (itemsToElems k rest)
termination_by structural l => l
end

/-- `result[tag] = child_dict` / coalescing of repeated tags in
`_element_to_dict`: absent key appends; a present non-list value becomes
a two-element list; a present list is appended to in place. -/
def insertCoalesce (result : PyDict) (tag : String) (d : PyVal) : PyDict :=
  match dlookup tag result with
  | none => dappend result (.dcons tag d .dnil)
  | some (.plist xs) => dsetD result tag (.plist (lappend xs (.lcons d .lnil)))
  | some old => dsetD result tag (.plist (.lcons old (.lcons d .lnil)))

mutual
/-- `_element_to_dict`: attributes under `'@attributes'` (when any),
then either the children (coalesced by stripped tag, in order) or — for
a childless element — the stripped text under `'#text'` (when nonempty
after stripping). -/
def element_to_dict : Elem → PyDict
  | .mk _ attrs text children =>
      let base : PyDict := match attrs with
        | [] => .dnil
        | _ => .dcons "@attributes" (.pdict (attrsToDict attrs)) .dnil
      match children with
      | .enil =>
          match text with
          | some s =>
              if pyStrip s = "" then base
              else dappend base (.dcons "#text" (.pstr (pyStrip s)) .dnil)
          | none => base
      | _ => foldChildren base children
termination_by structural e => e

/-- The `for child in children` loop of `_element_to_dict`. -/
def foldChildren (acc : PyDict) : ElemList → PyDict
  | .enil => acc
  | .econs e rest =>
      foldChildren (insertCoalesce acc (stripNs e.tag)
        (.pdict (element_to_dict e))) rest
termination_by structural l => l
end

/-- The Monitor-and-Control namespace URI `dict_to_xml` declares. -/
def nsUri : String := "http://www.ccsds.org/schema/Service/MonitorAndControl"

/-- A re-parsed tag: `ET.fromstring` qualifies tags of elements in the
default namespace as `{uri}tag`. -/
def nsMark (tag : String) : String :=
  String.mk ('{' :: nsUri.data ++ '}' :: tag.data)

/-- `"xmlns:"`-prefixed character lists. -/
def startsWithXmlnsColon : List Char → Bool
  | 'x' :: 'm' :: 'l' :: 'n' :: 's' :: ':' :: _ => true
  | _ => false

/-- Attribute names that are namespace declarations, invisible in
`attrib` after re-parsing: `xmlns` itself and `xmlns:`-prefixed names. -/
def isXmlnsAttr (n : String) : Bool :=
  n == "xmlns" || startsWithXmlnsColon n.data

mutual
/-- `ET.fromstring (ET.tostring e)` at the element level: tags become
namespace-qualified, `xmlns` attributes become namespace declarations
(vanish from `attrib`), everything else survives. -/
def reparse : Elem → Elem
  | .mk tag attrs text children =>
      .mk (nsMark tag) (attrs.filter (fun p => !(isXmlnsAttr p.1))) text
        (reparseList children)
termination_by structural e => e

def reparseList : ElemList → ElemList
  | .enil => .enil
  | .econs e rest => .econs (reparse e) (reparseList rest)
termination_by structural l => l
end

/-- `root.set(k, v)` (attribute update-or-append). -/
def setAttr (e : Elem) (k v : String) : Elem :=
  .mk e.tag (dictSet e.attrs k v) e.text e.children

/-- `CCSDSXMLValidator.dict_to_xml` up to serialization: build the
element tree and set the two namespace attributes on the root.
(`ET.indent` and `ET.tostring` then produce the text; see `reparse`.) -/
def dict_to_xml (data : PyVal) (root_tag : String) : Elem :=
  setAttr (setAttr (dict_to_element root_tag data) "xmlns" nsUri)
    "xmlns:common" "http://www.ccsds.org/schema/Common"

/-- `CCSDSXMLValidator.xml_to_dict` after `ET.fromstring`:
`_element_to_dict(root)` (the root tag itself is never read). -/
def xml_to_dict (e : Elem) : PyDict := element_to_dict e

/-- `xml_to_dict(dict_to_xml(t, root_tag))` with the XML text layer
modelled by `reparse`. -/
def xmlRoundTrip (root_tag : String) (t : PyVal) : PyDict :=
  xml_to_dict (reparse (dict_to_xml t root_tag))

/-- C9 counterexample: the round trip is not lossless.  The tagged tree
`{"a": "hello"}` (a string leaf) comes back as
`{"a": {"#text": "hello"}}`: `dict_to_element` writes a scalar as element
text, and `_element_to_dict` reads leaf text back under the reserved
`'#text'` key, so the original tree is not recovered. -/
theorem claim_C9_counterexample :
    xmlRoundTrip "Doc" (.pdict (.dcons "a" (.pstr "hello") .dnil)) =
      .dcons "a" (.pdict (.dcons "#text" (.pstr "hello") .dnil)) .dnil ∧
    PyDict.dcons "a" (.pdict (.dcons "#text" (.pstr "hello") .dnil)) .dnil ≠
      PyDict.dcons "a" (.pstr "hello") .dnil := by
  exact ⟨by decide, by decide⟩

/-! ### The normalized tree domain

Each failure mode of the round trip forces one restriction; `normalD`
collects them: text only as a nonempty, already-stripped string of
printable ASCII under a sole `'#text'` key of a childless node (scalar
leaves, mixed text-and-children content, empty or padded text are all
lossy; a carriage return is normalized to a line feed by the XML parser,
and non-ASCII whitespace at either end is removed by Python's
Unicode-aware `str.strip()`, which `pyStrip` matches on printable
ASCII); `'@attributes'` only first, mapping to a nonempty dict of
printable-ASCII string values whose names are ASCII XML names other
than namespace declarations; ordinary keys distinct ASCII XML names
(a `':'` in a tag is prefix-resolved on re-parsing, `common:x` comes
back as `x`, and a character outside the name alphabet makes the
serialized document ill-formed so the parse returns an error dict);
list values only with ≥ 2 items (a singleton list collapses to its
element), every item a dict. -/

/-- Printable ASCII (0x20–0x7E): these characters survive serialization
and re-parsing verbatim (`<`, `>`, `&`, `"` are escaped and unescaped),
are untouched by the parser's end-of-line normalization, and none of
them beyond the ASCII space — already excluded at the ends by the
`pyStrip`-fixedness condition — is removed by Python's Unicode-aware
`str.strip()` on read-back. -/
def asciiPrintable (c : Char) : Bool := 32 ≤ c.toNat && c.toNat ≤ 126

def nameStartChar (c : Char) : Bool := c.isAlpha || c = '_'

def nameChar (c : Char) : Bool := c.isAlphanum || c = '_' || c = '-' || c = '.'

/-- An ASCII XML name (NCName): letters, digits, `'_'`, `'-'`, `'.'`,
not starting with a digit, `'-'` or `'.'`, and in particular colon-free.
The serializer writes such a tag or attribute name verbatim and the
parser reads it back unchanged. -/
def xmlNameOk (s : String) : Bool :=
  match s.data with
  | [] => false
  | c :: cs => nameStartChar c && cs.all nameChar

def textOk (s : String) : Bool :=
  (s != "") && (pyStrip s == s) && s.data.all asciiPrintable

def noBrace (s : String) : Bool := s.data.all (fun c => c != '}')

def entryKeyOk (k : String) : Bool :=
  xmlNameOk k && (k != "@attributes") && (k != "#text") && noBrace k

def notKeyD (k : String) : PyDict → Bool
  | .dnil => true
  | .dcons k' _ rest => (k' != k) && notKeyD k rest

def attrKeyOk (n : String) : Bool := xmlNameOk n && !(isXmlnsAttr n)

def attrsNormal : PyDict → Bool
  | .dnil => true
  | .dcons k v rest =>
      (match v with | .pstr s => s.data.all asciiPrintable | _ => false) &&
        attrKeyOk k && notKeyD k rest && attrsNormal rest

def normalAttrsV : PyVal → Bool
  | .pdict .dnil => false
  | .pdict avs => attrsNormal avs
  | _ => false

def twoOrMoreL : PyList → Bool
  | .lcons _ (.lcons _ _) => true
  | _ => false

mutual
def normalC : PyDict → Bool
  | .dnil => true
  | .dcons "#text" v rest =>
      (match v, rest with
       | .pstr s, .dnil => textOk s
       | _, _ => false)
  | .dcons k v rest =>
      entryKeyOk k && normalV v && notKeyD k rest && normalEntries rest
termination_by structural d => d

def normalEntries : PyDict → Bool
  | .dnil => true
  | .dcons k v rest =>
      entryKeyOk k && normalV v && notKeyD k rest && normalEntries rest
termination_by structural d => d

def normalV : PyVal → Bool
  | .pstr _ => false
  | .pdict (.dcons "@attributes" av rest) => normalAttrsV av && normalC rest
  | .pdict d => normalC d
  | .plist l => twoOrMoreL l && normalL l
termination_by structural v => v

def normalL : PyList → Bool
  | .lnil => true
  | .lcons v rest =>
      (match v with | .pdict _ => true | _ => false) && normalV v && normalL rest
termination_by structural l => l
end

/-- A normalized dict tree: optional well-formed `'@attributes'` first,
then normalized content. -/
def normalD : PyDict → Bool
  | .dcons "@attributes" av rest => normalAttrsV av && normalC rest
  | d => normalC d

/-! ### Association-list and string lemmas for the round-trip proof -/

/-- Single-motive spine induction for `PyDict` (the mutual recursor has
multiple motives, which the `induction` tactic does not accept). -/
theorem pyDictSpine {motive : PyDict → Prop} (dnil : motive .dnil)
    (dcons : ∀ k v rest, motive rest → motive (.dcons k v rest)) :
    ∀ d, motive d
  | .dnil => dnil
  | .dcons k v rest => dcons k v rest (pyDictSpine dnil dcons rest)
termination_by structural d => d

/-- Single-motive spine induction for `PyList`. -/
theorem pyListSpine {motive : PyList → Prop} (lnil : motive .lnil)
    (lcons : ∀ v rest, motive rest → motive (.lcons v rest)) :
    ∀ l, motive l
  | .lnil => lnil
  | .lcons v rest => lcons v rest (pyListSpine lnil lcons rest)
termination_by structural l => l

/-- Single-motive spine induction for `ElemList`. -/
theorem elemListSpine {motive : ElemList → Prop} (enil : motive .enil)
    (econs : ∀ e rest, motive rest → motive (.econs e rest)) :
    ∀ l, motive l
  | .enil => enil
  | .econs e rest => econs e rest (elemListSpine enil econs rest)
termination_by structural l => l

theorem dappend_dnil (b : PyDict) : dappend b .dnil = b := by
  induction b using pyDictSpine with
  | dnil => rfl
  | dcons k v rest ih => simp [dappend, ih]

theorem dappend_assoc (a b c : PyDict) :
    dappend (dappend a b) c = dappend a (dappend b c) := by
  induction a using pyDictSpine with
  | dnil => rfl
  | dcons k v rest ih => simp [dappend, ih]

theorem dlookup_dappend_of_none {k : String} {a : PyDict} (b : PyDict)
    (h : dlookup k a = none) : dlookup k (dappend a b) = dlookup k b := by
  induction a using pyDictSpine with
  | dnil => rfl
  | dcons k' v rest ih =>
      by_cases hk : k' = k
      · simp [dlookup, hk] at h
      · simp only [dlookup, if_neg hk] at h
        simp only [dappend, dlookup, if_neg hk]
        exact ih h

theorem dlookup_dappend_single_self {k : String} {a : PyDict} (v : PyVal)
    (h : dlookup k a = none) :
    dlookup k (dappend a (.dcons k v .dnil)) = some v := by
  rw [dlookup_dappend_of_none _ h]
  simp [dlookup]

theorem dsetD_dappend_self {k : String} {a : PyDict} (v w : PyVal)
    (h : dlookup k a = none) :
    dsetD (dappend a (.dcons k v .dnil)) k w = dappend a (.dcons k w .dnil) := by
  induction a using pyDictSpine with
  | dnil => simp [dappend, dsetD]
  | dcons k' v' rest ih =>
      by_cases hk : k' = k
      · simp [dlookup, hk] at h
      · simp only [dlookup, if_neg hk] at h
        simp only [dappend, dsetD, if_neg hk]
        rw [ih h]

theorem lappend_lnil (xs : PyList) : lappend xs .lnil = xs := by
  induction xs using pyListSpine with
  | lnil => rfl
  | lcons v rest ih => simp [lappend, ih]

theorem lappend_snoc (xs : PyList) (d : PyVal) (r : PyList) :
    lappend (lappend xs (.lcons d .lnil)) r = lappend xs (.lcons d r) := by
  induction xs using pyListSpine with
  | lnil => rfl
  | lcons v rest ih => simp [lappend, ih]

theorem reparseList_eappend (a b : ElemList) :
    reparseList (eappend a b) = eappend (reparseList a) (reparseList b) := by
  induction a using elemListSpine with
  | enil => rfl
  | econs e rest ih => simp [eappend, reparseList, ih]

theorem foldChildren_eappend (acc : PyDict) (a b : ElemList) :
    foldChildren acc (eappend a b) = foldChildren (foldChildren acc a) b := by
  induction a using elemListSpine generalizing acc with
  | enil => rfl
  | econs e rest ih => simp [eappend, foldChildren, ih]

theorem stripAfterBrace_append {l1 : List Char} (l2 : List Char)
    (h : l1.all (fun c => c ≠ '}')) :
    stripAfterBrace (l1 ++ '}' :: l2) =
      some (l2.takeWhile (fun c => c ≠ '}')) := by
  induction l1 with
  | nil => simp [stripAfterBrace]
  | cons c rest ih =>
      simp only [List.all_cons, Bool.and_eq_true, decide_eq_true_eq] at h
      simp only [List.cons_append, stripAfterBrace, if_neg h.1]
      exact ih (by simpa using h.2)

theorem takeWhile_noBrace {l : List Char} (h : l.all (fun c => c ≠ '}')) :
    l.takeWhile (fun c => c ≠ '}') = l := by
  induction l with
  | nil => rfl
  | cons c rest ih =>
      simp only [List.all_cons, Bool.and_eq_true] at h
      have hc : c ≠ '}' := by simpa using h.1
      rw [List.takeWhile_cons]
      simp only [decide_eq_true_eq]
      rw [if_pos hc]
      rw [ih h.2]

theorem stripNs_nsMark {k : String} (h : noBrace k = true) :
    stripNs (nsMark k) = k := by
  unfold stripNs nsMark
  have hu : (('{' :: nsUri.data).all (fun c => c ≠ '}')) = true := by decide
  have : ('{' :: nsUri.data ++ '}' :: k.data : List Char) =
      ('{' :: nsUri.data) ++ '}' :: k.data := by simp
  rw [show (String.mk ('{' :: nsUri.data ++ '}' :: k.data)).data =
      ('{' :: nsUri.data) ++ '}' :: k.data by simp]
  rw [stripAfterBrace_append k.data hu]
  rw [takeWhile_noBrace (by simpa [noBrace] using h)]

theorem filter_dictSet_xmlns {k : String} (v : String)
    (A : List (String × String)) (h : isXmlnsAttr k = true) :
    (dictSet A k v).filter (fun p => !(isXmlnsAttr p.1)) =
      A.filter (fun p => !(isXmlnsAttr p.1)) := by
  induction A with
  | nil => simp [dictSet, h]
  | cons a rest ih =>
      obtain ⟨k', v'⟩ := a
      by_cases hk : k' = k
      · subst hk
        simp [dictSet, List.filter, h]
      · simp [dictSet, hk, List.filter, ih]

theorem filter_attrsOf_normal {avs : PyDict} (h : attrsNormal avs = true) :
    (attrsOf avs).filter (fun p => !(isXmlnsAttr p.1)) = attrsOf avs := by
  induction avs using pyDictSpine with
  | dnil => rfl
  | dcons k v rest ih =>
      simp only [attrsNormal, Bool.and_eq_true] at h
      simp only [attrsOf, List.filter]
      have hak := h.1.1.2
      rw [attrKeyOk, Bool.and_eq_true] at hak
      rw [hak.2]
      rw [ih h.2]

theorem attrsToDict_attrsOf {avs : PyDict} (h : attrsNormal avs = true) :
    attrsToDict (attrsOf avs) = avs := by
  induction avs using pyDictSpine with
  | dnil => rfl
  | dcons k v rest ih =>
      simp only [attrsNormal, Bool.and_eq_true] at h
      obtain ⟨⟨⟨hstr, _⟩, _⟩, hrest⟩ := h
      cases v with
      | pstr s => simp [attrsOf, attrsToDict, pyStr, ih hrest]
      | pdict d => simp at hstr
      | plist l => simp at hstr

/-! ### Sizes and shape lemmas -/

mutual
def sizeV : PyVal → Nat
  | .pstr _ => 1
  | .pdict d => 1 + sizeD d
  | .plist l => 1 + sizeL l
termination_by structural v => v

def sizeD : PyDict → Nat
  | .dnil => 0
  | .dcons _ v rest => 1 + sizeV v + sizeD rest
termination_by structural d => d

def sizeL : PyList → Nat
  | .lnil => 0
  | .lcons v rest => 1 + sizeV v + sizeL rest
termination_by structural l => l
end

theorem sizeD_zero {d : PyDict} (h : sizeD d ≤ 0) : d = .dnil := by
  cases d with
  | dnil => rfl
  | dcons k v rest => simp [sizeD] at h

theorem sizeV_pos (v : PyVal) : 1 ≤ sizeV v := by
  cases v <;> simp [sizeV]

theorem normalV_pdict (d : PyDict) : normalV (.pdict d) = normalD d := by
  cases d with
  | dnil => rfl
  | dcons k v rest =>
      by_cases hk : k = "@attributes"
      · subst hk; rfl
      · have h1 : normalV (.pdict (.dcons k v rest)) =
            normalC (.dcons k v rest) := by
          rw [normalV]
          intro av r' he
          injection he with h _ _
          exact hk h
        have h2 : normalD (.dcons k v rest) = normalC (.dcons k v rest) := by
          rw [normalD]
          intro av r' he
          injection he with h _ _
          exact hk h
        rw [h1, h2]

theorem normalAttrsV_shape {av : PyVal} (h : normalAttrsV av = true) :
    ∃ avs, av = .pdict avs ∧ avs ≠ .dnil ∧ attrsNormal avs = true := by
  cases av with
  | pstr s => simp [normalAttrsV] at h
  | plist l => simp [normalAttrsV] at h
  | pdict d =>
      cases d with
      | dnil => simp [normalAttrsV] at h
      | dcons k v rest =>
          refine ⟨.dcons k v rest, rfl, fun hh => PyDict.noConfusion hh, ?_⟩
          rw [normalAttrsV] at h
          · exact h
          · intro he
            exact PyDict.noConfusion he

theorem twoOrMoreL_shape {l : PyList} (h : twoOrMoreL l = true) :
    ∃ a b r, l = .lcons a (.lcons b r) := by
  cases l with
  | lnil => simp [twoOrMoreL] at h
  | lcons a rest =>
      cases rest with
      | lnil => simp [twoOrMoreL] at h
      | lcons b r => exact ⟨a, b, r, rfl⟩

theorem normalL_cons {v : PyVal} {rest : PyList}
    (h : normalL (.lcons v rest) = true) :
    (∃ dv, v = .pdict dv) ∧ normalV v = true ∧ normalL rest = true := by
  cases v with
  | pstr s => simp [normalL] at h
  | plist l => simp [normalL] at h
  | pdict d =>
      simp only [normalL, Bool.true_and, Bool.and_eq_true] at h
      exact ⟨⟨d, rfl⟩, h.1, h.2⟩

theorem notKeyD_lookup {k : String} {c : PyDict} (h : notKeyD k c = true)
    {k' : String} {v' : PyVal} (hl : dlookup k' c = some v') : k' ≠ k := by
  induction c using pyDictSpine with
  | dnil => simp [dlookup] at hl
  | dcons k0 v0 rest ih =>
      rw [notKeyD] at h
      simp only [Bool.and_eq_true, bne_iff_ne, ne_eq] at h
      by_cases hk : k0 = k'
      · subst hk
        exact fun he => h.1 (by rw [he])
      · simp only [dlookup, if_neg hk] at hl
        exact ih h.2 hl

theorem normalEntries_cons {k : String} {v : PyVal} {rest : PyDict}
    (h : normalEntries (.dcons k v rest) = true) :
    entryKeyOk k = true ∧ normalV v = true ∧ notKeyD k rest = true ∧
      normalEntries rest = true := by
  rw [normalEntries] at h
  simp only [Bool.and_eq_true] at h
  exact ⟨h.1.1.1, h.1.1.2, h.1.2, h.2⟩

theorem normalEntries_keys_ok {c : PyDict} (h : normalEntries c = true)
    {k' : String} {v' : PyVal} (hl : dlookup k' c = some v') :
    entryKeyOk k' = true := by
  induction c using pyDictSpine with
  | dnil => simp [dlookup] at hl
  | dcons k0 v0 rest ih =>
      obtain ⟨hk0, _, _, hrest⟩ := normalEntries_cons h
      by_cases hk : k0 = k'
      · subst hk; exact hk0
      · simp only [dlookup, if_neg hk] at hl
        exact ih hrest hl

theorem normalEntries_no_attributes {c : PyDict}
    (h : normalEntries c = true) : dlookup "@attributes" c = none := by
  cases hl : dlookup "@attributes" c with
  | none => rfl
  | some v' =>
      have := normalEntries_keys_ok h hl
      simp [entryKeyOk] at this

theorem normalEntries_no_text {c : PyDict}
    (h : normalEntries c = true) : dlookup "#text" c = none := by
  cases hl : dlookup "#text" c with
  | none => rfl
  | some v' =>
      have := normalEntries_keys_ok h hl
      simp [entryKeyOk] at this

theorem entryKeyOk_not_reserved {k : String} (h : entryKeyOk k = true) :
    ¬(k = "@attributes" ∨ k = "#text") := by
  simp only [entryKeyOk, Bool.and_eq_true, bne_iff_ne, ne_eq] at h
  rintro (rfl | rfl)
  · exact h.1.1.2 rfl
  · exact h.1.2 rfl

theorem normalC_entries {k : String} {v : PyVal} {rest : PyDict}
    (hk : k ≠ "#text") (h : normalC (.dcons k v rest) = true) :
    normalEntries (.dcons k v rest) = true := by
  rw [normalC] at h
  · rw [normalEntries]
    exact h
  · intro he
    exact hk he

theorem normalC_text {v : PyVal} {rest : PyDict}
    (h : normalC (.dcons "#text" v rest) = true) :
    ∃ s, v = .pstr s ∧ rest = .dnil ∧ textOk s = true := by
  cases v with
  | pstr s =>
      cases rest with
      | dnil => exact ⟨s, rfl, rfl, by simpa [normalC] using h⟩
      | dcons k' v' r' => simp [normalC] at h
  | pdict d => simp [normalC] at h
  | plist l => simp [normalC] at h

/-! ### The round-trip induction -/

/-- Round-trip statement at size budget `n`: every normalized dict of
size at most `n`, sent through `dict_to_element`, the text layer and
`_element_to_dict`, comes back unchanged (under any tag — the element
tag is not read back). -/
def RoundP (n : Nat) : Prop :=
  ∀ d : PyDict, sizeD d ≤ n → normalD d = true →
    ∀ T : String, element_to_dict (reparse (dict_to_element T (.pdict d))) = d

theorem reparse_dict_to_element (k : String) (d : PyDict) :
    reparse (dict_to_element k (.pdict d)) =
      .mk (nsMark k) ((attrsOfDict d).filter (fun p => !(isXmlnsAttr p.1)))
        (textOfDict d) (reparseList (childrenOf d)) := rfl

/-- Processing the children of one list-valued entry, once the entry is
already present as a list: each further item is appended in place. -/
theorem items_aux {n : Nat} (IH : RoundP n) :
    ∀ items : PyList, sizeL items ≤ n + 1 → normalL items = true →
    ∀ (k : String) (base : PyDict) (xs : PyList), noBrace k = true →
    dlookup k base = none →
    foldChildren (dappend base (.dcons k (.plist xs) .dnil))
        (reparseList (itemsToElems k items)) =
      dappend base (.dcons k (.plist (lappend xs items)) .dnil) := by
  intro items
  induction items using pyListSpine with
  | lnil =>
      intro _ _ k base xs _ _
      rw [show itemsToElems k .lnil = .enil from rfl]
      rw [show reparseList .enil = .enil from rfl]
      rw [foldChildren, lappend_lnil]
  | lcons v rest ih =>
      intro hs hn k base xs hk hb
      obtain ⟨⟨dv, rfl⟩, hnv, hnr⟩ := normalL_cons hn
      have hsd : sizeD dv ≤ n := by
        simp only [sizeL, sizeV] at hs
        omega
      have hsr : sizeL rest ≤ n + 1 := by
        simp only [sizeL, sizeV] at hs
        omega
      rw [show itemsToElems k (.lcons (.pdict dv) rest) =
        .econs (dict_to_element k (.pdict dv)) (itemsToElems k rest) from rfl]
      rw [show reparseList (.econs (dict_to_element k (.pdict dv))
          (itemsToElems k rest)) =
        .econs (reparse (dict_to_element k (.pdict dv)))
          (reparseList (itemsToElems k rest)) from rfl]
      rw [foldChildren]
      have htag : stripNs (reparse (dict_to_element k (.pdict dv))).tag = k := by
        rw [show (reparse (dict_to_element k (.pdict dv))).tag = nsMark k
          from rfl]
        exact stripNs_nsMark hk
      have hround : element_to_dict (reparse (dict_to_element k (.pdict dv))) =
          dv :=
        IH dv hsd (by rw [← normalV_pdict]; exact hnv) k
      rw [htag, hround]
      have hlook : dlookup k (dappend base (.dcons k (.plist xs) .dnil)) =
          some (.plist xs) :=
        dlookup_dappend_single_self (.plist xs) hb
      have hins : insertCoalesce (dappend base (.dcons k (.plist xs) .dnil)) k
          (.pdict dv) =
          dappend base (.dcons k
            (.plist (lappend xs (.lcons (.pdict dv) .lnil))) .dnil) := by
        rw [insertCoalesce, hlook]
        exact dsetD_dappend_self (.plist xs) _ hb
      rw [hins]
      rw [ih hsr hnr k base (lappend xs (.lcons (.pdict dv) .lnil)) hk hb]
      rw [lappend_snoc]

/-- The children loop of `_element_to_dict` rebuilds a normalized entry
dict on top of any base whose keys are disjoint from it. -/
theorem fold_round {n : Nat} (IH : RoundP n) :
    ∀ c : PyDict, sizeD c ≤ n + 2 → normalEntries c = true →
    ∀ base : PyDict,
    (∀ k' v', dlookup k' c = some v' → dlookup k' base = none) →
    foldChildren base (reparseList (childrenOf c)) = dappend base c := by
  intro c
  induction c using pyDictSpine with
  | dnil =>
      intro _ _ base _
      rw [show childrenOf .dnil = .enil from rfl,
        show reparseList .enil = .enil from rfl, foldChildren, dappend_dnil]
  | dcons k v rest ih =>
      intro hs hn base hfresh
      obtain ⟨hko, hnv, hnk, hnr⟩ := normalEntries_cons hn
      have hnres := entryKeyOk_not_reserved hko
      have hkbrace : noBrace k = true := by
        simp only [entryKeyOk, Bool.and_eq_true] at hko
        exact hko.2
      have hbase : dlookup k base = none :=
        hfresh k v (by rw [dlookup, if_pos rfl])
      have hfreshx : ∀ (w : PyVal) (k' : String) (v' : PyVal),
          dlookup k' rest = some v' →
          dlookup k' (dappend base (.dcons k w .dnil)) = none := by
        intro w k' v' hl
        have hk' : k' ≠ k := notKeyD_lookup hnk hl
        have hb' : dlookup k' base = none := by
          apply hfresh k' v'
          rw [dlookup, if_neg (fun he => hk' he.symm)]
          exact hl
        rw [dlookup_dappend_of_none _ hb', dlookup,
          if_neg (fun he => hk' he.symm)]
        rfl
      have hsr : sizeD rest ≤ n + 2 := by
        simp only [sizeD] at hs
        have := sizeV_pos v
        omega
      cases v with
      | pstr s => simp [normalV] at hnv
      | pdict dc =>
          have hsd : sizeD dc ≤ n := by
            simp only [sizeD, sizeV] at hs
            omega
          have hch : childrenOf (.dcons k (.pdict dc) rest) =
              .econs (dict_to_element k (.pdict dc)) (childrenOf rest) := by
            rw [childrenOf, if_neg hnres]
          rw [hch]
          rw [show reparseList (.econs (dict_to_element k (.pdict dc))
              (childrenOf rest)) =
            .econs (reparse (dict_to_element k (.pdict dc)))
              (reparseList (childrenOf rest)) from rfl]
          rw [foldChildren]
          have htag : stripNs (reparse (dict_to_element k (.pdict dc))).tag =
              k := by
            rw [show (reparse (dict_to_element k (.pdict dc))).tag = nsMark k
              from rfl]
            exact stripNs_nsMark hkbrace
          have hround :
              element_to_dict (reparse (dict_to_element k (.pdict dc))) = dc :=
            IH dc hsd (by rw [← normalV_pdict]; exact hnv) k
          rw [htag, hround]
          have hins : insertCoalesce base k (.pdict dc) =
              dappend base (.dcons k (.pdict dc) .dnil) := by
            rw [insertCoalesce, hbase]
          rw [hins]
          rw [ih hsr hnr (dappend base (.dcons k (.pdict dc) .dnil))
            (hfreshx (.pdict dc))]
          rw [dappend_assoc]
          rfl
      | plist items =>
          rw [normalV] at hnv
          simp only [Bool.and_eq_true] at hnv
          obtain ⟨h2m, hnl⟩ := hnv
          obtain ⟨a, b, r, rfl⟩ := twoOrMoreL_shape h2m
          obtain ⟨⟨d1, rfl⟩, hna, hnl'⟩ := normalL_cons hnl
          obtain ⟨⟨d2, rfl⟩, hnb, hnl''⟩ := normalL_cons hnl'
          have hsd1 : sizeD d1 ≤ n := by
            simp only [sizeD, sizeV, sizeL] at hs
            omega
          have hsd2 : sizeD d2 ≤ n := by
            simp only [sizeD, sizeV, sizeL] at hs
            omega
          have hsrl : sizeL r ≤ n + 1 := by
            simp only [sizeD, sizeV, sizeL] at hs
            omega
          have hch : childrenOf (.dcons k
              (.plist (.lcons (.pdict d1) (.lcons (.pdict d2) r))) rest) =
              eappend (itemsToElems k
                (.lcons (.pdict d1) (.lcons (.pdict d2) r)))
                (childrenOf rest) := by
            rw [childrenOf, if_neg hnres]
          rw [hch, reparseList_eappend, foldChildren_eappend]
          have htag1 : stripNs (reparse (dict_to_element k (.pdict d1))).tag =
              k := by
            rw [show (reparse (dict_to_element k (.pdict d1))).tag = nsMark k
              from rfl]
            exact stripNs_nsMark hkbrace
          have htag2 : stripNs (reparse (dict_to_element k (.pdict d2))).tag =
              k := by
            rw [show (reparse (dict_to_element k (.pdict d2))).tag = nsMark k
              from rfl]
            exact stripNs_nsMark hkbrace
          have hround1 :
              element_to_dict (reparse (dict_to_element k (.pdict d1))) = d1 :=
            IH d1 hsd1 (by rw [← normalV_pdict]; exact hna) k
          have hround2 :
              element_to_dict (reparse (dict_to_element k (.pdict d2))) = d2 :=
            IH d2 hsd2 (by rw [← normalV_pdict]; exact hnb) k
          have hfirst : foldChildren base (reparseList (itemsToElems k
              (.lcons (.pdict d1) (.lcons (.pdict d2) r)))) =
              dappend base (.dcons k
                (.plist (.lcons (.pdict d1) (.lcons (.pdict d2) r))) .dnil) := by
            rw [show reparseList (itemsToElems k
                (.lcons (.pdict d1) (.lcons (.pdict d2) r))) =
              .econs (reparse (dict_to_element k (.pdict d1)))
                (.econs (reparse (dict_to_element k (.pdict d2)))
                  (reparseList (itemsToElems k r))) from rfl]
            rw [foldChildren, htag1, hround1]
            have hins1 : insertCoalesce base k (.pdict d1) =
                dappend base (.dcons k (.pdict d1) .dnil) := by
              rw [insertCoalesce, hbase]
            rw [hins1, foldChildren, htag2, hround2]
            have hins2 : insertCoalesce
                (dappend base (.dcons k (.pdict d1) .dnil)) k (.pdict d2) =
                dappend base (.dcons k
                  (.plist (.lcons (.pdict d1) (.lcons (.pdict d2) .lnil)))
                  .dnil) := by
              rw [insertCoalesce, dlookup_dappend_single_self _ hbase]
              exact dsetD_dappend_self _ _ hbase
            rw [hins2]
            rw [items_aux IH r hsrl hnl'' k base
              (.lcons (.pdict d1) (.lcons (.pdict d2) .lnil)) hkbrace hbase]
            rfl
          rw [hfirst]
          rw [ih hsr hnr _
            (hfreshx (.plist (.lcons (.pdict d1) (.lcons (.pdict d2) r))))]
          rw [dappend_assoc]
          rfl

theorem normalC_key_not_attributes {c : PyDict} (h : normalC c = true)
    {k' : String} {v' : PyVal} (hl : dlookup k' c = some v') :
    k' ≠ "@attributes" := by
  cases c with
  | dnil => simp [dlookup] at hl
  | dcons k v rest =>
      by_cases hk : k = "#text"
      · subst hk
        obtain ⟨s, rfl, rfl, _⟩ := normalC_text h
        by_cases hk' : k' = "#text"
        · subst hk'
          intro he
          exact absurd he (by decide)
        · rw [dlookup, if_neg (fun he => hk' he.symm)] at hl
          simp [dlookup] at hl
      · have hE := normalC_entries hk h
        have := normalEntries_keys_ok hE hl
        simp only [entryKeyOk, Bool.and_eq_true, bne_iff_ne, ne_eq] at this
        exact this.1.1.2

theorem normalC_lookup_attributes {k : String} {v : PyVal} {rest : PyDict}
    (_hk : k ≠ "@attributes") (h : normalC (.dcons k v rest) = true) :
    dlookup "@attributes" (.dcons k v rest) = none := by
  cases hl : dlookup "@attributes" (.dcons k v rest) with
  | none => rfl
  | some v' => exact absurd rfl (normalC_key_not_attributes h hl)

theorem normalC_lookup_text_entries {k : String} {v : PyVal} {rest : PyDict}
    (hk : k ≠ "#text") (h : normalC (.dcons k v rest) = true) :
    dlookup "#text" (.dcons k v rest) = none :=
  normalEntries_no_text (normalC_entries hk h)

theorem childrenOf_entries_shape {k : String} {v : PyVal} {rest : PyDict}
    (hres : ¬(k = "@attributes" ∨ k = "#text")) (hnv : normalV v = true) :
    ∃ e es, childrenOf (.dcons k v rest) = .econs e es := by
  cases v with
  | pstr s => simp [normalV] at hnv
  | pdict dc =>
      exact ⟨dict_to_element k (.pdict dc), childrenOf rest,
        by rw [childrenOf, if_neg hres]⟩
  | plist items =>
      rw [normalV] at hnv
      simp only [Bool.and_eq_true] at hnv
      obtain ⟨a, b, r, rfl⟩ := twoOrMoreL_shape hnv.1
      exact ⟨dict_to_element k a,
        eappend (itemsToElems k (.lcons b r)) (childrenOf rest),
        by rw [childrenOf, if_neg hres]; rfl⟩

/-- The base dict `_element_to_dict` starts from: the attributes under
`'@attributes'` when there are any. -/
def baseOfAttrs (attrs : List (String × String)) : PyDict :=
  match attrs with
  | [] => .dnil
  | _ => .dcons "@attributes" (.pdict (attrsToDict attrs)) .dnil

/-- `_element_to_dict` on an element holding normalized content plus an
arbitrary attribute list whose induced base dict is key-disjoint from the
content. -/
theorem elem_round_with_base {n : Nat} (IH : RoundP n) (c : PyDict)
    (hs : sizeD c ≤ n + 2) (hn : normalC c = true) (tag : String)
    (attrs : List (String × String)) (base : PyDict)
    (hbase : baseOfAttrs attrs = base)
    (hfresh : ∀ k' v', dlookup k' c = some v' → dlookup k' base = none) :
    element_to_dict (.mk tag attrs (textOfDict c)
      (reparseList (childrenOf c))) = dappend base c := by
  rw [← hbase]
  cases c with
  | dnil =>
      rw [show textOfDict .dnil = none from rfl,
        show childrenOf .dnil = .enil from rfl,
        show reparseList .enil = .enil from rfl, dappend_dnil]
      rfl
  | dcons k v rest =>
      by_cases hk : k = "#text"
      · subst hk
        obtain ⟨s, rfl, rfl, htk⟩ := normalC_text hn
        simp only [textOk, Bool.and_eq_true, bne_iff_ne, ne_eq,
          beq_iff_eq] at htk
        obtain ⟨⟨hsne, hstrip⟩, _⟩ := htk
        rw [show textOfDict (.dcons "#text" (.pstr s) .dnil) = some s from rfl,
          show childrenOf (.dcons "#text" (.pstr s) .dnil) = .enil from rfl,
          show reparseList .enil = .enil from rfl]
        rw [show element_to_dict (.mk tag attrs (some s) .enil) =
          (if pyStrip s = "" then baseOfAttrs attrs
           else dappend (baseOfAttrs attrs)
             (.dcons "#text" (.pstr (pyStrip s)) .dnil)) from rfl]
        rw [hstrip, if_neg hsne]
      · have hE := normalC_entries hk hn
        have hko := (normalEntries_cons hE).1
        have hnv := (normalEntries_cons hE).2.1
        have hres := entryKeyOk_not_reserved hko
        have htx : textOfDict (.dcons k v rest) = none := by
          rw [textOfDict, normalC_lookup_text_entries hk hn]
        have hshape : ∃ e es, childrenOf (.dcons k v rest) = .econs e es :=
          childrenOf_entries_shape hres hnv
        obtain ⟨e, es, hch⟩ := hshape
        rw [htx, hch]
        rw [show reparseList (.econs e es) =
          .econs (reparse e) (reparseList es) from rfl]
        rw [show element_to_dict (.mk tag attrs none
            (.econs (reparse e) (reparseList es))) =
          foldChildren (baseOfAttrs attrs)
            (.econs (reparse e) (reparseList es)) from rfl]
        rw [show (ElemList.econs (reparse e) (reparseList es)) =
          reparseList (.econs e es) from rfl]
        rw [← hch]
        exact fold_round IH (.dcons k v rest) hs hE (baseOfAttrs attrs)
          (fun k' v' hl => by rw [hbase]; exact hfresh k' v' hl)

theorem roundD_main : ∀ n, RoundP n := by
  intro n
  induction n with
  | zero =>
      intro d hs hn T
      obtain rfl := sizeD_zero hs
      rfl
  | succ n ihn =>
      intro d hs hn T
      rw [reparse_dict_to_element]
      cases d with
      | dnil => rfl
      | dcons k v rest =>
          by_cases hk : k = "@attributes"
          · subst hk
            rw [normalD] at hn
            simp only [Bool.and_eq_true] at hn
            obtain ⟨hA, hC⟩ := hn
            obtain ⟨avs, rfl, hne, hAn⟩ := normalAttrsV_shape hA
            have hattrs : attrsOfDict (.dcons "@attributes" (.pdict avs) rest) =
                attrsOf avs := rfl
            have htext : textOfDict (.dcons "@attributes" (.pdict avs) rest) =
                textOfDict rest := rfl
            have hch : childrenOf (.dcons "@attributes" (.pdict avs) rest) =
                childrenOf rest := by
              rw [childrenOf, if_pos (Or.inl rfl)]
            rw [hattrs, htext, hch, filter_attrsOf_normal hAn]
            have hsr : sizeD rest ≤ n + 2 := by
              simp only [sizeD] at hs
              omega
            have hbase : baseOfAttrs (attrsOf avs) =
                .dcons "@attributes" (.pdict avs) .dnil := by
              cases avs with
              | dnil => exact absurd rfl hne
              | dcons k' v' r' =>
                  rw [show attrsOf (.dcons k' v' r') =
                    (k', pyStr v') :: attrsOf r' from rfl]
                  rw [show baseOfAttrs ((k', pyStr v') :: attrsOf r') =
                    .dcons "@attributes"
                      (.pdict (attrsToDict ((k', pyStr v') :: attrsOf r')))
                      .dnil from rfl]
                  rw [show ((k', pyStr v') :: attrsOf r' :
                    List (String × String)) = attrsOf (.dcons k' v' r')
                    from rfl]
                  rw [attrsToDict_attrsOf hAn]
            have hfr : ∀ k' v', dlookup k' rest = some v' →
                dlookup k' (.dcons "@attributes" (.pdict avs) .dnil) =
                  none := by
              intro k' v' hl
              have hne' := normalC_key_not_attributes hC hl
              rw [dlookup, if_neg (fun he => hne' he.symm)]
              rfl
            rw [elem_round_with_base ihn rest hsr hC (nsMark T)
              (attrsOf avs) _ hbase hfr]
            rfl
          · have hn' : normalC (.dcons k v rest) = true := by
              rw [normalD] at hn
              · exact hn
              · intro av r' he
                injection he with h _ _
                exact hk h
            have hattrs : attrsOfDict (.dcons k v rest) = [] := by
              rw [attrsOfDict, normalC_lookup_attributes hk hn']
            rw [hattrs]
            rw [show (([] : List (String × String)).filter
              (fun p => !(isXmlnsAttr p.1))) = [] from rfl]
            have hsc : sizeD (.dcons k v rest) ≤ n + 2 :=
              le_trans hs (by omega)
            rw [elem_round_with_base ihn (.dcons k v rest) hsc hn' (nsMark T)
              [] .dnil rfl (fun k' v' _ => rfl)]
            rfl

/-- The two `xmlns` attributes `dict_to_xml` sets on the root become
namespace declarations on re-parsing, so the re-parsed tree is the same
as without them. -/
theorem reparse_dict_to_xml (data : PyVal) (root_tag : String) :
    reparse (dict_to_xml data root_tag) =
      reparse (dict_to_element root_tag data) := by
  rcases hE : dict_to_element root_tag data with ⟨t, a, x, c⟩
  rw [dict_to_xml, hE]
  rw [show setAttr (.mk t a x c) "xmlns" nsUri =
    .mk t (dictSet a "xmlns" nsUri) x c from rfl]
  rw [show setAttr (.mk t (dictSet a "xmlns" nsUri) x c) "xmlns:common"
      "http://www.ccsds.org/schema/Common" =
    .mk t (dictSet (dictSet a "xmlns" nsUri) "xmlns:common"
      "http://www.ccsds.org/schema/Common") x c from rfl]
  rw [reparse, reparse]
  rw [filter_dictSet_xmlns _ _ (by decide),
    filter_dictSet_xmlns _ _ (by decide)]

/-- C9 (amended): the XML tree codec round trip `xml_to_dict ∘
dict_to_xml` is the identity on *normalized* tagged trees (`normalD`)
under a valid root tag: text only as a nonempty pre-stripped
printable-ASCII string under a sole `'#text'` key of a childless node,
`'@attributes'` only first with a nonempty dict of printable-ASCII
string values whose names are ASCII XML names other than namespace
declarations, ordinary keys distinct ASCII XML names, and repeated-tag
sequences only as lists of at least two dicts.  The root tag must be an
ASCII XML name as well (an ill-formed root tag makes the whole document
unparseable), though its spelling never reaches the output, which reads
only the children of the re-parsed root.  Outside this domain the round
trip loses information (`claim_C9_counterexample`). -/
theorem claim_C9_xml_roundtrip (root_tag : String)
    (_hroot : xmlNameOk root_tag = true) (d : PyDict)
    (h : normalD d = true) :
    xmlRoundTrip root_tag (.pdict d) = d := by
  rw [xmlRoundTrip, xml_to_dict, reparse_dict_to_xml]
  exact roundD_main (sizeD d) d le_rfl h root_tag

theorem claim_C9_witness :
    xmlRoundTrip "GetParameterValuesResponse"
      (.pdict (.dcons "@attributes" (.pdict (.dcons "id" (.pstr "P1") .dnil))
        (.dcons "a" (.pdict (.dcons "#text" (.pstr "x") .dnil))
          (.dcons "b" (.pdict .dnil)
            (.dcons "c" (.plist (.lcons (.pdict .dnil)
              (.lcons (.pdict .dnil) .lnil))) .dnil))))) =
      .dcons "@attributes" (.pdict (.dcons "id" (.pstr "P1") .dnil))
        (.dcons "a" (.pdict (.dcons "#text" (.pstr "x") .dnil))
          (.dcons "b" (.pdict .dnil)
            (.dcons "c" (.plist (.lcons (.pdict .dnil)
              (.lcons (.pdict .dnil) .lnil))) .dnil))) :=
  claim_C9_xml_roundtrip "GetParameterValuesResponse" (by decide) _ (by decide)

end CCSDS
